import Mathlib

/-!
# Pipeline orchestration engine of `pipelinenew.js`

A shallow embedding of the two request handlers of `src/pipelinenew.js`:

* `app.post('/upload')`: genome lookup, index build, the pairing loop that
  resolves samples, script generation and launch;
* `app.get('/progress')`: the `sendProgress` poll of one subscriber.

JavaScript strings are lists of UTF-16 code units, the upload directory is a
finite map from file names to contents, and the external commands are
parameters of the model.
-/

namespace Pipeline

/-! ## JavaScript strings -/

/-- A JavaScript string, as the list of its UTF-16 code units. -/
abbrev JSString := List Nat

/-- The UTF-16 code units of one Unicode scalar value. -/
def utf16 (c : Char) : List Nat :=
  if c.toNat < 0x10000 then [c.toNat]
  else [0xD800 + (c.toNat - 0x10000) / 0x400, 0xDC00 + (c.toNat - 0x10000) % 0x400]

/-- The JavaScript string denoted by a literal. -/
def js (s : String) : JSString := s.toList.flatMap utf16

/-- JavaScript `s.endsWith(suf)`. -/
def endsWith (s suf : JSString) : Bool := suf.isSuffixOf s

/-- JavaScript `s.replace(pat, '')` for a string pattern: the first occurrence of `pat`
is removed, a string without occurrence is returned unchanged. -/
def replaceFirst (pat : JSString) : JSString → JSString
  | [] => []
  | c :: cs =>
    if pat.isPrefixOf (c :: cs) then (c :: cs).drop pat.length
    else c :: replaceFirst pat cs

/-- The code units removed by `String.prototype.trim`: the ECMAScript
WhiteSpace and LineTerminator code points. -/
def isWhiteSpace (c : Nat) : Bool :=
  c = 0x09 || c = 0x0A || c = 0x0B || c = 0x0C || c = 0x0D || c = 0x20 ||
  c = 0xA0 || c = 0x1680 || (0x2000 ≤ c && c ≤ 0x200A) || c = 0x2028 ||
  c = 0x2029 || c = 0x202F || c = 0x205F || c = 0x3000 || c = 0xFEFF

/-- JavaScript `s.trim()`. -/
def trim (s : JSString) : JSString :=
  ((s.dropWhile isWhiteSpace).reverse.dropWhile isWhiteSpace).reverse

/-- JavaScript `s.split('\n')`: the pieces between line feeds; never the empty array. -/
def split : JSString → List JSString
  | [] => [[]]
  | c :: cs =>
    if c = 0x0A then [] :: split cs
    else
      match split cs with
      | [] => [[c]]
      | l :: ls => (c :: l) :: ls

/-- JavaScript `arr.join(sep)`. -/
def join (sep : JSString) : List JSString → JSString
  | [] => []
  | [l] => l
  | l :: ls => l ++ sep ++ join sep ls

/-! ## Paths (names without directory separator) -/

/-- Node `path.extname` on a name without `/`: the part from the last dot on,
empty when there is no dot, when the last dot is the first character, or for
`..`. -/
def extname (p : JSString) : JSString :=
  let tail := p.reverse.takeWhile (fun c => c != 0x2E)
  if tail.length = p.length then []
  else
    let startDot := p.length - tail.length - 1
    if startDot = 0 then []
    else if p = [0x2E, 0x2E] then []
    else p.drop startDot

/-- Node `path.basename(p, ext)` on a name without `/`. -/
def basename (p ext : JSString) : JSString :=
  if ext ≠ [] ∧ ext.length ≤ p.length then
    if ext = p then []
    else if endsWith p ext then p.take (p.length - ext.length)
    else p
  else p

/-- Node `path.join('uploads', name)` for a plain file name. -/
def uploadsPath (name : JSString) : JSString := js "uploads/" ++ name

/-! ## The upload directory -/

/-- The content of directory `uploads/`: file name to file content. -/
abbrev Dir := JSString → Option JSString

/-- The empty directory. -/
def emptyDir : Dir := fun _ => none

/-- Node `fs.writeFileSync(path.join('uploads', name), content)`. -/
def writeFileSync (name content : JSString) (d : Dir) : Dir :=
  fun p => if p = name then some content else d p

/-- Node `fs.renameSync(path.join('uploads', old), path.join('uploads', new))`:
`none` stands for the exception thrown when the source does not exist. -/
def renameSync (old new : JSString) (d : Dir) : Option Dir :=
  match d old with
  | none => none
  | some content =>
    some (fun p => if p = new then some content else if p = old then none else d p)

/-- The multer disk storage (`destination: 'uploads/'`, `filename:
originalname`): every uploaded part is written under its original name, in
upload order. -/
def diskStorage : List (JSString × JSString) → Dir → Dir
  | [], d => d
  | (name, content) :: rest, d => diskStorage rest (writeFileSync name content d)

/-! ## Sample resolution: the pairing loop -/

/-- How the `for` loop of the upload callback ends. -/
inductive LoopResult where
  /-- The loop ran to its end; `sampleFiles` and the directory at that point. -/
  | done (sampleFiles : List JSString) (d : Dir)
  /-- The loop met `return res.status(400).send('File pairs do not match.')`. -/
  | mismatch (d : Dir)
  /-- The call `file2.replace` on `undefined` threw a TypeError. -/
  | typeError (d : Dir)
  /-- The call `fs.renameSync` threw (source file missing). -/
  | renameError (d : Dir)

/-- The `for (let i = 0; i < files.length; i += 2)` loop, on the remaining
files from index `i` on, the `sampleFiles` pushed so far and the directory. -/
def pairingLoop : List JSString → List JSString → Dir → LoopResult
  | [], sampleFiles, d => .done sampleFiles d
  | [_], _, d => .typeError d
  | file1 :: file2 :: rest, sampleFiles, d =>
    if replaceFirst (js "_1.fastq.gz") file1 = replaceFirst (js "_2.fastq.gz") file2 then
      pairingLoop rest (sampleFiles ++ [replaceFirst (js "_1.fastq.gz") file1]) d
    else if replaceFirst (js "_R1.fastq.gz") file1 = replaceFirst (js "_R2.fastq.gz") file2 then
      let sampleName := replaceFirst (js "_R1.fastq.gz") file1
      match renameSync file1 (sampleName ++ js "_1.fastq.gz") d with
      | none => .renameError d
      | some d1 =>
        match renameSync file2 (sampleName ++ js "_2.fastq.gz") d1 with
        | none => .renameError d1
        | some d2 => pairingLoop rest (sampleFiles ++ [sampleName]) d2
    else .mismatch d

/-! ## The generated pipeline script -/

/-- The template text before the interpolated `samplesList`. -/
def scriptHead : List String :=
  ["#!/bin/bash\n",
   "\n",
   "        set -e\n",
   "        basedir=\"uploads\"\n",
   "        samples=(\n",
   "        "]

/-- The template text between `samplesList` and `GENOMEIDX1`. -/
def scriptAfterSamples : List String :=
  ["\n",
   "        )\n",
   "        GENOMEIDX1="]

/-- The template text between `GENOMEIDX1` and `GENOMEIDX`. -/
def scriptAfterIndex : List String :=
  ["\n",
   "        GENOMEIDX="]

/-- The rest of the template: the `for sample_name` loop and the final MultiQC
command, free of interpolation. -/
def scriptLoop : List String :=
  ["\n",
   "        progress_file=\"$\x7bbasedir\x7d/progress.txt\"\n",
   "\n",
   "        echo \"Pipeline started\" > $\x7bprogress_file\x7d\n",
   "\n",
   "        for sample_name in \"$\x7bsamples[@]\x7d\"; do\n",
   "            sleep 2\n",
   "            echo \"Step I: Quality Control and Preprocessing\" >> $\x7bprogress_file\x7d\n",
   "            echo \"Step 1.1: FastQC Quality Control Report for $\x7bsample_name\x7d\" >> $\x7bprogress_file\x7d\n",
   "            fastqc -o \"$\x7bbasedir\x7d/fastqc_output/\" \"$\x7bbasedir\x7d/$\x7bsample_name\x7d_1.fastq.gz\" \"$\x7bbasedir\x7d/$\x7bsample_name\x7d_2.fastq.gz\"\n",
   "            sleep 2\n",
   "            echo \"Step-1.2: Trimmed Quality Control for $\x7bsample_name\x7d\" >> $\x7bprogress_file\x7d\n",
   "            fastp -i \"$\x7bbasedir\x7d/$\x7bsample_name\x7d_1.fastq.gz\" -o \"$\x7bbasedir\x7d/$\x7bsample_name\x7d_P1.fastq\"                   -I \"$\x7bbasedir\x7d/$\x7bsample_name\x7d_2.fastq.gz\" -O \"$\x7bbasedir\x7d/$\x7bsample_name\x7d_P2.fastq\"                   --thread 4 -h \"$\x7bbasedir\x7d/fastp-$\x7bsample_name\x7d.html\" 2> \"$\x7bbasedir\x7d/fastp-$\x7bsample_name\x7d.log\"\n",
   "            sleep 2\n",
   "            echo \"Step II: Read Alignment for $\x7bsample_name\x7d\" >> $\x7bprogress_file\x7d\n",
   "            echo \"Step-2.1: Read Alignment for $\x7bsample_name\x7d\" >> $\x7bprogress_file\x7d\n",
   "            bowtie2 -p 64 -x \"$\x7bGENOMEIDX1\x7d\" -1 \"$\x7bbasedir\x7d/$\x7bsample_name\x7d_P1.fastq\" -2 \"$\x7bbasedir\x7d/$\x7bsample_name\x7d_P2.fastq\" -S \"$\x7bbasedir\x7d/$\x7bsample_name\x7d.sam\"\n",
   "            sleep 2\n",
   "            echo \"Step-III: Coverage Analysis for $\x7bsample_name\x7d\" >> $\x7bprogress_file\x7d\n",
   "            echo \"Step 3.1 Conversion Of Sam To BAM File for $\x7bsample_name\x7d\" >> $\x7bprogress_file\x7d\n",
   "            samtools view -b \"$\x7bbasedir\x7d/$\x7bsample_name\x7d.sam\" -o \"$\x7bbasedir\x7d/$\x7bsample_name\x7d.bam\"\n",
   "            sleep 2\n",
   "            echo \"Step-3.2: Alignment Metrics for $\x7bsample_name\x7d\" >> $\x7bprogress_file\x7d\n",
   "              samtools flagstat \"$\x7bbasedir\x7d/$\x7bsample_name\x7d.bam\" > \"$\x7bbasedir\x7d/$\x7bsample_name\x7d.flagstat.txt\"\n",
   "            sleep 2\n",
   "            echo \"Step-3.3: Conversion of BAM To Sorted BAM for $\x7bsample_name\x7d\" >> $\x7bprogress_file\x7d\n",
   "            samtools sort \"$\x7bbasedir\x7d/$\x7bsample_name\x7d.bam\" -o \"$\x7bbasedir\x7d/$\x7bsample_name\x7d.sorted.bam\"\n",
   "            echo \"Step-3.4: Removing duplicate reads from Sorted Bam Files for $\x7bsample_name\x7d\" >> $\x7bprogress_file\x7d\n",
   "            samtools rmdup -S \"$\x7bbasedir\x7d/$\x7bsample_name\x7d.sorted.bam\" \"$\x7bbasedir\x7d/$\x7bsample_name\x7d.duprem.bam\"\n",
   "            sleep 2\n",
   "            echo \"Step-3.5: Deriving Low Coverage Bed File for $\x7bsample_name\x7d\" >> $\x7bprogress_file\x7d\n",
   "            samtools depth \"$\x7bbasedir\x7d/$\x7bsample_name\x7d.duprem.bam\" | awk \x27$3 < 5 \x7bprint $1\"\t\"$2\"\t\"$3\x7d\x27 > \"$\x7bbasedir\x7d/coverage_$\x7bsample_name\x7d.txt\"\n",
   "            sleep 2\n",
   "            input_bam=\"$\x7bbasedir\x7d/coverage_$\x7bsample_name\x7d.txt\"\n",
   "            output_bed=\"$\x7bbasedir\x7d/$\x7bsample_name\x7d.bed\"\n",
   "            sleep 2\n",
   "            echo \"Step-3.6: Extracting start end coordinates of missing read segments for $\x7bsample_name\x7d\" >> $\x7bprogress_file\x7d\n",
   "            python3 \"pipelines/convert_bam_to_bed.py\" \"$\x7bsample_name\x7d\" \"$\x7binput_bam\x7d\" \"$\x7boutput_bed\x7d\"\n",
   "            sleep 2\n",
   "            echo \"Step-3.7: Performing N-masking for $\x7bsample_name\x7d\" >> $\x7bprogress_file\x7d\n",
   "            bedtools maskfasta -fi \"$\x7bGENOMEIDX\x7d\" -bed \"$\x7boutput_bed\x7d\" -mc N -fo \"$\x7bbasedir\x7d/$\x7bsample_name\x7d_masked.fasta\"\n",
   "            echo \"Step IV: Generation of VCF, VCF Index and Viral Genome for $\x7bsample_name\x7d\" >> $\x7bprogress_file\x7d\n",
   "            echo \"Step-4: Generation of VCF for $\x7bsample_name\x7d\" >> $\x7bprogress_file\x7d\n",
   "            bcftools mpileup -f \"$\x7bGENOMEIDX\x7d\" \"$\x7bbasedir\x7d/$\x7bsample_name\x7d.duprem.bam\" | bcftools call -cv --ploidy 1 -Oz -o \"$\x7bbasedir\x7d/$\x7bsample_name\x7d.vcf.gz\"\n",
   "            sleep 2\n",
   "            echo \"Step-4.1: Generation of VCF Index for $\x7bsample_name\x7d\" >> $\x7bprogress_file\x7d\n",
   "            bcftools index \"$\x7bbasedir\x7d/$\x7bsample_name\x7d.vcf.gz\"\n",
   "            sleep 2\n",
   "            echo \"Step-4.2: Generation of viral genome fasta for $\x7bsample_name\x7d\" >> $\x7bprogress_file\x7d\n",
   "            cat \"$\x7bbasedir\x7d/$\x7bsample_name\x7d_masked.fasta\" | bcftools consensus \"$\x7bbasedir\x7d/$\x7bsample_name\x7d.vcf.gz\" > \"$\x7bbasedir\x7d/$\x7bsample_name\x7d_genome.fa\"\n",
   "            sleep 2\n",
   "            echo \"complete!\" >> $\x7bprogress_file\x7d\n",
   "        done\n",
   "        echo \"Step 1.3: MultiQC Quality Control\" >> $\x7bprogress_file\x7d\n",
   "            multiqc \"$\x7bbasedir\x7d/fastqc_output/\" \"$\x7bbasedir\x7d/\" -o \"$\x7bbasedir\x7d/multiqc_output/\"\n",
   "        "]

/-- The array elements `sampleFiles.map(sample => ...).join(' \\\n')`. -/
def samplesList (sampleFiles : List JSString) : JSString :=
  join (js " \\\n") (sampleFiles.map fun sample => js "    \"" ++ sample ++ js "\"")

/-- The template literal `pipelineScriptContent`. -/
def pipelineScriptContent (sampleFiles : List JSString) (GENOMEIDX1 GENOMEIDX : JSString) :
    JSString :=
  js (String.join scriptHead) ++ samplesList sampleFiles ++
  js (String.join scriptAfterSamples) ++ GENOMEIDX1 ++
  js (String.join scriptAfterIndex) ++ GENOMEIDX ++
  js (String.join scriptLoop)

/-! ## The `/upload` handler -/

/-- The test of `files.find`: the name ends in `.fasta` or `.fa`. -/
def isGenomeFile (originalname : JSString) : Bool :=
  endsWith originalname (js ".fasta") || endsWith originalname (js ".fa")

/-- JavaScript `files.find(file => ...)`: the first file with a genome ending, if any. -/
def genomeFile (files : List JSString) : Option JSString :=
  files.find? isGenomeFile

/-- Node `path.join('uploads', genomeFile.filename)`. -/
def genomeFilePath (genome : JSString) : JSString := uploadsPath genome

/-- Node `path.join('uploads', path.basename(genomeFile.filename,
path.extname(genomeFile.filename)))`. -/
def indexBasePath (genome : JSString) : JSString :=
  uploadsPath (basename genome (extname genome))

/-- The command line of the index build. -/
def bowtieBuildCmd (genome : JSString) : JSString :=
  js "bowtie2-build " ++ genomeFilePath genome ++ js " " ++ indexBasePath genome

/-- The command line that launches the generated script. -/
def runScriptCmd : JSString := js "bash " ++ uploadsPath (js "pipeline.sh")

/-- What the handler can observe and change: the upload directory and the
commands handed to `child_process.exec` so far, oldest first. -/
structure Store where
  /-- The files of `uploads/`. -/
  dir : Dir
  /-- The commands executed so far. -/
  execs : List JSString

/-- What an external command did: whether it reported an error to its
callback, and the directory it left. -/
structure ExecResult where
  /-- The `error` argument of the callback is set. -/
  error : Bool
  /-- The upload directory after the command. -/
  dir : Dir

/-- The responses of the handler. -/
inductive Response where
  /-- Status 400, no genome among the files. -/
  | noGenome
  /-- Status 500, the index build failed. -/
  | indexError
  /-- Status 400, a pair of files does not match. -/
  | mismatch
  /-- Status 200, the pipeline was launched. -/
  | started
  deriving DecidableEq, Repr

/-- The status code of a response. -/
def Response.status : Response → Nat
  | .noGenome => 400
  | .indexError => 500
  | .mismatch => 400
  | .started => 200

/-- The body of a response. -/
def Response.body : Response → JSString
  | .noGenome => js "Please upload a .fasta or .fa file."
  | .indexError => js "Error building Bowtie index."
  | .mismatch => js "File pairs do not match."
  | .started => js "Pipeline execution started."

/-- The exceptions the callback can throw; nothing catches them. -/
inductive Exception where
  /-- Reading property `replace` of `undefined`. -/
  | typeError
  /-- The error of `fs.renameSync` on a missing source. -/
  | renameError
  deriving DecidableEq, Repr

/-- How one upload request ends, with the store it leaves. -/
inductive Outcome where
  /-- A response was sent. -/
  | responded (r : Response) (s : Store)
  /-- An exception escaped the callback; no response was sent. -/
  | threw (e : Exception) (s : Store)

/-- The handler of `app.post('/upload')` on the uploaded file names, in upload
order; `exec` is the effect of running the index build command. The mode set
by `fs.chmodSync` and the output of the launched script are not part of the
store. -/
def upload (exec : JSString → Dir → ExecResult) (files : List JSString) (s : Store) :
    Outcome :=
  match genomeFile files with
  | none => .responded .noGenome s
  | some genome =>
    let built := exec (bowtieBuildCmd genome) s.dir
    let execs := s.execs ++ [bowtieBuildCmd genome]
    if built.error then .responded .indexError { dir := built.dir, execs := execs }
    else
      match pairingLoop files [] built.dir with
      | .mismatch d => .responded .mismatch { dir := d, execs := execs }
      | .typeError d => .threw .typeError { dir := d, execs := execs }
      | .renameError d => .threw .renameError { dir := d, execs := execs }
      | .done sampleFiles d =>
        let script :=
          pipelineScriptContent sampleFiles (indexBasePath genome) (genomeFilePath genome)
        let d1 := writeFileSync (js "pipeline.sh") script d
        let d2 := writeFileSync (js "progress.txt") [] d1
        .responded .started { dir := d2, execs := execs ++ [runScriptCmd] }

/-- An index build that succeeds and leaves the directory as it is (only used
to run the handler on examples). -/
def buildOk : JSString → Dir → ExecResult := fun _ d => { error := false, dir := d }


/-- The response of an outcome, if one was sent. -/
def Outcome.response : Outcome → Option Response
  | .responded r _ => some r
  | .threw _ _ => none

/-- The exception of an outcome, if one was thrown. -/
def Outcome.exception : Outcome → Option Exception
  | .responded _ _ => none
  | .threw e _ => some e

/-- The store an outcome leaves. -/
def Outcome.store : Outcome → Store
  | .responded _ s => s
  | .threw _ s => s

/-- The `sampleFiles` of a loop that ran to its end. -/
def LoopResult.samples : LoopResult → Option (List JSString)
  | .done sampleFiles _ => some sampleFiles
  | _ => none

/-- The directory a loop leaves. -/
def LoopResult.dir : LoopResult → Dir
  | .done _ d => d
  | .mismatch d => d
  | .typeError d => d
  | .renameError d => d

/-- Both tests of the loop fail on the pair: the names with `_1.fastq.gz` and
`_2.fastq.gz` removed differ, and so do the names with `_R1.fastq.gz` and
`_R2.fastq.gz` removed. -/
def pairMismatch (file1 file2 : JSString) : Bool :=
  replaceFirst (js "_1.fastq.gz") file1 != replaceFirst (js "_2.fastq.gz") file2 &&
  replaceFirst (js "_R1.fastq.gz") file1 != replaceFirst (js "_R2.fastq.gz") file2

/-- The directory after a file was moved from `old` to `new`: the content of
`old` is found under `new`, and `old` is gone. -/
def moved (old new : JSString) (d : Dir) : Dir :=
  fun p => if p = new then d old else if p = old then none else d p

/-- The directory in which the files of every `_R1`/`_R2` pair before the first
pair that matches under neither convention have been moved to their `_1`/`_2`
names, first file first; pairs that match under `_1`/`_2` stay as they are. -/
def movedPairs : List JSString → Dir → Dir
  | file1 :: file2 :: rest, d =>
    if replaceFirst (js "_1.fastq.gz") file1 = replaceFirst (js "_2.fastq.gz") file2 then
      movedPairs rest d
    else if replaceFirst (js "_R1.fastq.gz") file1 = replaceFirst (js "_R2.fastq.gz") file2 then
      movedPairs rest
        (moved file2 (replaceFirst (js "_R1.fastq.gz") file1 ++ js "_2.fastq.gz")
          (moved file1 (replaceFirst (js "_R1.fastq.gz") file1 ++ js "_1.fastq.gz") d))
    else d
  | _, d => d

/-! ## The steps of the generated script

The commands the script is shown to run, in the order the shell runs them: the
body of `for sample_name in "${samples[@]}"` once per array element, then the
final command. Each command is recorded with the paths it is given to read and
to write. The `echo` and `sleep` lines call no tool and are no steps. The
shell that reads the script text follows below; `shellSteps` gives the steps
it runs. -/

/-- The external tools the script calls. -/
inductive Tool where
  /-- Command `fastqc`. -/
  | fastqc
  /-- Command `fastp`. -/
  | fastp
  /-- Command `bowtie2`. -/
  | bowtie2
  /-- Command `samtools view -b`. -/
  | samtoolsView
  /-- Command `samtools flagstat`. -/
  | samtoolsFlagstat
  /-- Command `samtools sort`. -/
  | samtoolsSort
  /-- Command `samtools rmdup -S`. -/
  | samtoolsRmdup
  /-- Command `samtools depth` piped into the awk filter that keeps the positions
  whose depth (third column) is below the bound. -/
  | samtoolsDepthBelow (bound : Nat)
  /-- Command `python3 pipelines/convert_bam_to_bed.py`. -/
  | convertBamToBed
  /-- Command `bedtools maskfasta -mc N`. -/
  | bedtoolsMaskfasta
  /-- Command `bcftools mpileup` piped into `bcftools call`. -/
  | bcftoolsCall
  /-- Command `bcftools index`. -/
  | bcftoolsIndex
  /-- Command `bcftools consensus`. -/
  | bcftoolsConsensus
  /-- Command `multiqc`. -/
  | multiqc
  deriving DecidableEq, Repr

/-- One command of the script with its path arguments. -/
structure Step where
  /-- The tool called. -/
  tool : Tool
  /-- The paths the command line names as input. -/
  reads : List JSString
  /-- The paths the command line names as output. -/
  writes : List JSString
  deriving DecidableEq, Repr

/-- The path `"${basedir}/..."` with `basedir="uploads"`: the text before the
sample name and the text after it. -/
def inBasedir (before sample_name after : JSString) : JSString :=
  js "uploads" ++ js "/" ++ before ++ sample_name ++ after

/-- The steps of one iteration of the loop, for the values of the shell
variables `GENOMEIDX1`, `GENOMEIDX` and `sample_name`. -/
def loopBody (GENOMEIDX1 GENOMEIDX sample_name : JSString) : List Step :=
  let f := fun (before after : String) => inBasedir (js before) sample_name (js after)
  [ { tool := .fastqc,
      reads := [f "" "_1.fastq.gz", f "" "_2.fastq.gz"],
      writes := [js "uploads/fastqc_output/"] },
    { tool := .fastp,
      reads := [f "" "_1.fastq.gz", f "" "_2.fastq.gz"],
      writes := [f "" "_P1.fastq", f "" "_P2.fastq", f "fastp-" ".html", f "fastp-" ".log"] },
    { tool := .bowtie2,
      reads := [GENOMEIDX1, f "" "_P1.fastq", f "" "_P2.fastq"],
      writes := [f "" ".sam"] },
    { tool := .samtoolsView,
      reads := [f "" ".sam"],
      writes := [f "" ".bam"] },
    { tool := .samtoolsFlagstat,
      reads := [f "" ".bam"],
      writes := [f "" ".flagstat.txt"] },
    { tool := .samtoolsSort,
      reads := [f "" ".bam"],
      writes := [f "" ".sorted.bam"] },
    { tool := .samtoolsRmdup,
      reads := [f "" ".sorted.bam"],
      writes := [f "" ".duprem.bam"] },
    { tool := .samtoolsDepthBelow 5,
      reads := [f "" ".duprem.bam"],
      writes := [f "coverage_" ".txt"] },
    { tool := .convertBamToBed,
      reads := [f "coverage_" ".txt"],
      writes := [f "" ".bed"] },
    { tool := .bedtoolsMaskfasta,
      reads := [GENOMEIDX, f "" ".bed"],
      writes := [f "" "_masked.fasta"] },
    { tool := .bcftoolsCall,
      reads := [GENOMEIDX, f "" ".duprem.bam"],
      writes := [f "" ".vcf.gz"] },
    { tool := .bcftoolsIndex,
      reads := [f "" ".vcf.gz"],
      writes := [] },
    { tool := .bcftoolsConsensus,
      reads := [f "" "_masked.fasta", f "" ".vcf.gz"],
      writes := [f "" "_genome.fa"] } ]

/-- The command after `done`. -/
def finalStep : Step :=
  { tool := .multiqc,
    reads := [js "uploads/fastqc_output/", js "uploads/"],
    writes := [js "uploads/multiqc_output/"] }

/-- The steps of the whole script for the values of `GENOMEIDX1`, `GENOMEIDX`
and the elements of the array `samples`, when every command succeeds. -/
def scriptSteps (GENOMEIDX1 GENOMEIDX : JSString) (samples : List JSString) : List Step :=
  samples.flatMap (loopBody GENOMEIDX1 GENOMEIDX) ++ [finalStep]

/-- The tools of one sample, in the order of the thirteen stages. -/
def stageOrder : List Tool :=
  [.fastqc, .fastp, .bowtie2, .samtoolsView, .samtoolsFlagstat, .samtoolsSort,
   .samtoolsRmdup, .samtoolsDepthBelow 5, .convertBamToBed, .bedtoolsMaskfasta,
   .bcftoolsCall, .bcftoolsIndex, .bcftoolsConsensus]

/-- Every step reads only paths that are available: given at the start or
written by a step before it. -/
def Threaded (available : List JSString) : List Step → Prop
  | [] => True
  | st :: rest => (∀ r ∈ st.reads, r ∈ available) ∧ Threaded (available ++ st.writes) rest

/-! ## The `/progress` stream -/

/-- What one poll finds at `uploads/progress.txt`. -/
inductive Poll where
  /-- Case `fs.existsSync` is false. -/
  | missing
  /-- Case `fs.readFile` reports an error. -/
  | unreadable
  /-- Case `fs.readFile` delivers the text of the file. -/
  | content (data : JSString)

/-- One call of `sendProgress`: from the subscriber's `fileOffset` and what the
poll finds, the new `fileOffset` and the chunk handed to `res.write`, if
any. -/
def sendProgress (fileOffset : Nat) : Poll → Nat × Option JSString
  | .missing => (fileOffset, some (js "data: Waiting for progress file to be created...\n\n"))
  | .unreadable => (fileOffset, some (js "data: Error reading progress file\n\n"))
  | .content data =>
    if data.length > fileOffset then
      let newContent := data.drop fileOffset
      let newLines := join (js "\n") ((split newContent).filter fun line => trim line != [])
      (data.length, if newLines != [] then some (js "data: " ++ newLines ++ js "\n\n") else none)
    else (fileOffset, none)

/-- The successive interval ticks of one subscriber: what each poll writes. -/
def subscriber (fileOffset : Nat) : List Poll → List (Option JSString)
  | [] => []
  | p :: ps => (sendProgress fileOffset p).2 :: subscriber (sendProgress fileOffset p).1 ps

/-- The value of `fileOffset` after each of the successive polls. -/
def offsets (fileOffset : Nat) : List Poll → List Nat
  | [] => []
  | p :: ps => (sendProgress fileOffset p).1 :: offsets (sendProgress fileOffset p).1 ps

/-- A line that has a character other than white space. -/
def nonBlank (line : JSString) : Bool := line.any fun c => !isWhiteSpace c

/-- The non-blank lines of a text, in order. -/
def nonBlankLines (text : JSString) : List JSString := (split text).filter nonBlank

/-- The event that carries the given lines joined by newlines; no event for
no line. -/
def linesEvent (lines : List JSString) : Option JSString :=
  if lines = [] then none else some (js "data: " ++ join (js "\n") lines ++ js "\n\n")

/-! ## The shell that runs the script

The part of the shell language the generated script is written in: words
with single quotes, double quotes, backslash escapes, `$name`, `${name}` and
`"${name[@]}"`; comments; `;`, `|`, `>`, `>>` and `2>`; assignments and array
assignments; one level of `for ... in ...; do ... done`. Every other
construct (command substitution, globbing, tilde and brace expansion,
here-documents, background jobs, ...) makes the reading fail. Every command is
taken to succeed. -/

/-- One piece of a shell word. -/
inductive Seg where
  /-- Literal text, inside quotes or not. -/
  | text (s : JSString) (quoted : Bool)
  /-- The expansion of a variable, inside double quotes or not. -/
  | var (name : JSString) (quoted : Bool)
  /-- The expansion of all elements of an array, inside double quotes. -/
  | elems (name : JSString)
  deriving DecidableEq, Repr

/-- A shell word before expansion. -/
abbrev Word := List Seg

/-- The tokens of a script. -/
inductive Token where
  /-- A word. -/
  | word (w : Word)
  /-- The end of a line. -/
  | newline
  /-- The operator `;`. -/
  | semi
  /-- The operator `|`. -/
  | pipe
  /-- The operators `>`, `>>` and their forms with a descriptor number. -/
  | redirect (fd : Nat) (append : Bool)
  /-- The start `NAME=(` of an array assignment. -/
  | arrayOpen (w : Word)
  /-- The operator `)`. -/
  | arrayClose
  deriving DecidableEq, Repr

/-- Where the reader of characters stands. -/
inductive Mode where
  /-- Outside quotes. -/
  | normal
  /-- In a comment, up to the end of the line. -/
  | comment
  /-- Inside single quotes. -/
  | single
  /-- Inside double quotes. -/
  | double
  /-- After a backslash outside quotes. -/
  | escape
  /-- After a backslash inside double quotes. -/
  | doubleEscape
  /-- After a dollar sign. -/
  | dollar (quoted : Bool)
  /-- Inside the braces of a parameter expansion. -/
  | brace (quoted : Bool) (name : JSString)
  /-- Inside the name of a variable written without braces. -/
  | name (quoted : Bool) (name : JSString)
  /-- After the operator character `>`. -/
  | great (fd : Nat)
  /-- After a construct that is not modelled. -/
  | unsupported
  deriving DecidableEq, Repr

/-- The state of the reader of characters: the mode and the word being read. -/
structure LexState where
  /-- The mode. -/
  mode : Mode
  /-- The word being read, if any. -/
  word : Option Word
  deriving DecidableEq, Repr

/-- The first character of a variable name. -/
def isNameStart (c : Nat) : Bool :=
  (0x41 ≤ c && c ≤ 0x5A) || (0x61 ≤ c && c ≤ 0x7A) || c = 0x5F

/-- A character of a variable name. -/
def isNameChar (c : Nat) : Bool := isNameStart c || (0x30 ≤ c && c ≤ 0x39)

/-- A word with literal text added at its end. -/
def addText (t : JSString) (quoted : Bool) : Word → Word
  | [] => [.text t quoted]
  | [.text u q] => if q = quoted then [.text (u ++ t) q] else [.text u q, .text t quoted]
  | [seg] => [seg, .text t quoted]
  | seg :: rest => seg :: addText t quoted rest

/-- The word being read with literal text added. -/
def growText (w : Option Word) (t : JSString) (quoted : Bool) : Option Word :=
  some (addText t quoted (w.getD []))

/-- The word being read with a piece added. -/
def growSeg (w : Option Word) (seg : Seg) : Option Word := some (w.getD [] ++ [seg])

/-- The token of the word being read, if any. -/
def closeWord : Option Word → List Token
  | none => []
  | some w => [.word w]

/-- The characters that start a construct outside the model when they stand
outside quotes. -/
def isUnsupported (c : Nat) : Bool :=
  c = 0x26 || c = 0x3C || c = 0x60 || c = 0x2A || c = 0x3F || c = 0x5B || c = 0x7E || c = 0x7B

/-- The word ends with an unquoted `=`. -/
def endsWithEquals (w : Word) : Bool :=
  match w.getLast? with
  | some (.text t false) => t.getLast? = some 0x3D
  | _ => false

/-- One character read outside quotes, with the word being read: the new state
and the tokens that are complete. -/
def lexNormal (w : Option Word) (c : Nat) : LexState × List Token :=
  if c = 0x20 || c = 0x09 then (⟨.normal, none⟩, closeWord w)
  else if c = 0x0A then (⟨.normal, none⟩, closeWord w ++ [.newline])
  else if c = 0x3B then (⟨.normal, none⟩, closeWord w ++ [.semi])
  else if c = 0x7C then (⟨.normal, none⟩, closeWord w ++ [.pipe])
  else if c = 0x3E then
    match w with
    | some [.text [d] false] =>
      if 0x30 ≤ d && d ≤ 0x39 then (⟨.great (d - 0x30), none⟩, [])
      else (⟨.great 1, none⟩, closeWord w)
    | _ => (⟨.great 1, none⟩, closeWord w)
  else if c = 0x28 then
    match w with
    | some x =>
      if endsWithEquals x then (⟨.normal, none⟩, [.arrayOpen x])
      else (⟨.unsupported, w⟩, [])
    | none => (⟨.unsupported, w⟩, [])
  else if c = 0x29 then (⟨.normal, none⟩, closeWord w ++ [.arrayClose])
  else if c = 0x23 then
    if w = none then (⟨.comment, w⟩, []) else (⟨.normal, growText w [c] false⟩, [])
  else if c = 0x5C then (⟨.escape, w⟩, [])
  else if c = 0x27 then (⟨.single, growText w [] true⟩, [])
  else if c = 0x22 then (⟨.double, growText w [] true⟩, [])
  else if c = 0x24 then (⟨.dollar false, w⟩, [])
  else if isUnsupported c then (⟨.unsupported, w⟩, [])
  else (⟨.normal, growText w [c] false⟩, [])

/-- One character read inside double quotes. -/
def lexDouble (w : Option Word) (c : Nat) : LexState × List Token :=
  if c = 0x22 then (⟨.normal, w⟩, [])
  else if c = 0x5C then (⟨.doubleEscape, w⟩, [])
  else if c = 0x24 then (⟨.dollar true, w⟩, [])
  else if c = 0x60 then (⟨.unsupported, w⟩, [])
  else (⟨.double, growText w [c] true⟩, [])

/-- One character read after an expansion or a lone dollar sign, back in the
surrounding mode. -/
def lexOuter (quoted : Bool) (w : Option Word) (c : Nat) : LexState × List Token :=
  if quoted then lexDouble w c else lexNormal w c

/-- The piece an expansion `${...}` stands for, if it is modelled: a variable,
or all elements of an array inside double quotes. -/
def braceSeg (quoted : Bool) (name : JSString) : Option Seg :=
  if name ≠ [] ∧ name.all isNameChar ∧ (name.head?.map isNameStart = some true) then
    some (.var name quoted)
  else if quoted ∧ (js "[@]").isSuffixOf name ∧
      (name.take (name.length - 3)) ≠ [] ∧ (name.take (name.length - 3)).all isNameChar then
    some (.elems (name.take (name.length - 3)))
  else none

/-- One character of the script: the new state and the tokens that are
complete. -/
def lexStep (s : LexState) (c : Nat) : LexState × List Token :=
  match s.mode with
  | .normal => lexNormal s.word c
  | .comment => if c = 0x0A then lexNormal s.word c else (s, [])
  | .single =>
    if c = 0x27 then (⟨.normal, s.word⟩, []) else (⟨.single, growText s.word [c] true⟩, [])
  | .double => lexDouble s.word c
  | .escape =>
    if c = 0x0A then (⟨.normal, s.word⟩, [])
    else (⟨.normal, growText s.word [c] true⟩, [])
  | .doubleEscape =>
    if c = 0x24 || c = 0x60 || c = 0x22 || c = 0x5C then
      (⟨.double, growText s.word [c] true⟩, [])
    else if c = 0x0A then (⟨.double, s.word⟩, [])
    else (⟨.double, growText s.word [0x5C, c] true⟩, [])
  | .dollar quoted =>
    if c = 0x7B then (⟨.brace quoted [], s.word⟩, [])
    else if isNameStart c then (⟨.name quoted [c], s.word⟩, [])
    else if c = 0x28 || (0x30 ≤ c && c ≤ 0x39) || c = 0x40 || c = 0x2A || c = 0x23 ||
        c = 0x3F || c = 0x2D || c = 0x24 || c = 0x21 || c = 0x60 || c = 0x27 then
      (⟨.unsupported, s.word⟩, [])
    else lexOuter quoted (growText s.word [0x24] quoted) c
  | .brace quoted name =>
    if c = 0x7D then
      match braceSeg quoted name with
      | some seg => (⟨if quoted then .double else .normal, growSeg s.word seg⟩, [])
      | none => (⟨.unsupported, s.word⟩, [])
    else (⟨.brace quoted (name ++ [c]), s.word⟩, [])
  | .name quoted name =>
    if isNameChar c then (⟨.name quoted (name ++ [c]), s.word⟩, [])
    else lexOuter quoted (growSeg s.word (.var name quoted)) c
  | .great fd =>
    if c = 0x3E then (⟨.normal, s.word⟩, [.redirect fd true])
    else ((lexNormal s.word c).1, .redirect fd false :: (lexNormal s.word c).2)
  | .unsupported => (s, [])

/-- The characters of a script read in order: the state reached, and the tokens
read after those given. -/
def lexFold (s : LexState) (toks : List Token) : JSString → LexState × List Token
  | [] => (s, toks)
  | c :: cs => lexFold (lexStep s c).1 (toks ++ (lexStep s c).2) cs

/-- The tokens of a script, if every construct in it is modelled. -/
def lex (script : JSString) : Option (List Token) :=
  match lexFold ⟨.normal, none⟩ [] script with
  | (⟨.normal, w⟩, toks) => some (toks ++ closeWord w)
  | (⟨.comment, w⟩, toks) => some (toks ++ closeWord w)
  | (⟨.name false name, w⟩, toks) => some (toks ++ closeWord (growSeg w (.var name false)))
  | (⟨.dollar false, w⟩, toks) => some (toks ++ closeWord (growText w [0x24] false))
  | _ => none

/-- A redirection of a command. -/
structure Redirect where
  /-- The descriptor redirected: 1 is the output, 2 the error output. -/
  fd : Nat
  /-- Whether the file is appended to. -/
  append : Bool
  /-- The file. -/
  target : Word
  deriving DecidableEq, Repr

/-- A simple command before expansion. -/
structure Command where
  /-- The words, assignments first. -/
  words : List Word
  /-- The redirections. -/
  redirects : List Redirect
  deriving DecidableEq, Repr

/-- What one line of the script holds. -/
inductive Item where
  /-- Commands joined by `|`. -/
  | pipeline (cmds : List Command)
  /-- An array assignment `NAME=( ... )`, with the word `NAME=`. -/
  | array (name : Word) (elems : List Word)
  deriving DecidableEq, Repr

/-- The state of the reader of tokens. -/
structure ParseState where
  /-- The command being read. -/
  cmd : Command
  /-- A redirection operator that waits for its file. -/
  pending : Option (Nat × Bool)
  /-- The commands of the pipeline being read that are complete. -/
  pipe : List Command
  /-- The array assignment being read, if any. -/
  array : Option (Word × List Word)
  /-- No error so far. -/
  ok : Bool
  deriving DecidableEq, Repr

/-- The command without word or redirection. -/
def Command.empty : Command := { words := [], redirects := [] }

/-- The reader of tokens between two lines. -/
def ParseState.init : ParseState :=
  { cmd := Command.empty, pending := none, pipe := [], array := none, ok := true }

/-- The end of a command line: the pipeline read, if any, is an item. -/
def endLine (p : ParseState) : ParseState × List Item :=
  if p.pending.isSome then ({ p with ok := false }, [])
  else if p.cmd = Command.empty then
    if p.pipe = [] then (p, []) else ({ p with ok := false }, [])
  else ({ p with cmd := Command.empty, pipe := [] }, [.pipeline (p.pipe ++ [p.cmd])])

/-- One token of the script: the new state and the items that are complete. -/
def parseStep (p : ParseState) (t : Token) : ParseState × List Item :=
  if !p.ok then (p, [])
  else
    match p.array with
    | some (name, elems) =>
      match t with
      | .word w => ({ p with array := some (name, elems ++ [w]) }, [])
      | .newline => (p, [])
      | .arrayClose => ({ p with array := none }, [.array name elems])
      | _ => ({ p with ok := false }, [])
    | none =>
      match t with
      | .word w =>
        match p.pending with
        | some (fd, append) =>
          ({ p with
             cmd := { p.cmd with redirects := p.cmd.redirects ++ [⟨fd, append, w⟩] },
             pending := none }, [])
        | none => ({ p with cmd := { p.cmd with words := p.cmd.words ++ [w] } }, [])
      | .redirect fd append =>
        if p.pending.isSome then ({ p with ok := false }, [])
        else ({ p with pending := some (fd, append) }, [])
      | .pipe =>
        if p.pending.isSome || p.cmd = Command.empty then ({ p with ok := false }, [])
        else ({ p with cmd := Command.empty, pipe := p.pipe ++ [p.cmd] }, [])
      | .newline => endLine p
      | .semi => endLine p
      | .arrayOpen w =>
        if p.cmd = Command.empty ∧ p.pipe = [] ∧ p.pending = none then
          ({ p with array := some (w, []) }, [])
        else ({ p with ok := false }, [])
      | .arrayClose => ({ p with ok := false }, [])

/-- The tokens of a script read in order: the state reached, and the items read
after those given. -/
def parseFold (p : ParseState) (items : List Item) : List Token → ParseState × List Item
  | [] => (p, items)
  | t :: ts => parseFold (parseStep p t).1 (items ++ (parseStep p t).2) ts

/-- The items of a script, if it is well formed. -/
def parse (toks : List Token) : Option (List Item) :=
  match parseFold ParseState.init [] toks with
  | (p, items) =>
    if (endLine p).1.ok ∧ (endLine p).1.array = none then some (items ++ (endLine p).2)
    else none

/-- The shell variables and arrays, latest assignment first. -/
structure Env where
  /-- The variables. -/
  vars : List (JSString × JSString)
  /-- The arrays. -/
  arrays : List (JSString × List JSString)
  deriving DecidableEq, Repr

/-- The value of a variable; an unset variable expands to nothing. -/
def Env.get (e : Env) (name : JSString) : JSString := (e.vars.lookup name).getD []

/-- The elements of an array. -/
def Env.getArray (e : Env) (name : JSString) : List JSString :=
  (e.arrays.lookup name).getD []

/-- The assignment of a variable. -/
def Env.set (e : Env) (name value : JSString) : Env :=
  { e with vars := (name, value) :: e.vars.filter (fun kv => kv.1 != name) }

/-- The assignment of an array. -/
def Env.setArray (e : Env) (name : JSString) (values : List JSString) : Env :=
  { e with arrays := (name, values) :: e.arrays.filter (fun kv => kv.1 != name) }

/-- The fields of a word under expansion: the complete ones and the one being
built. -/
abbrev Fields := List JSString × Option JSString

/-- The field being built is complete. -/
def Fields.flush (f : Fields) : Fields :=
  match f.2 with
  | none => f
  | some cur => (f.1 ++ [cur], none)

/-- Text added to the field being built. -/
def Fields.add (f : Fields) (t : JSString) : Fields := (f.1, some (f.2.getD [] ++ t))

/-- The value of an unquoted expansion: it is split at spaces, tabs and line
feeds. -/
def splitValue (f : Fields) : JSString → Fields
  | [] => f
  | c :: cs =>
    if c = 0x20 || c = 0x09 || c = 0x0A then splitValue f.flush cs
    else splitValue (f.add [c]) cs

/-- The elements of an array expanded inside double quotes: one field each, and
no field at all for an empty array that stands alone in its quotes. -/
def addElems (f : Fields) : List JSString → Fields
  | [] => if f.2 = some [] then (f.1, none) else f
  | [x] => f.add x
  | x :: xs => addElems (f.add x).flush xs

/-- The expansion of one piece of a word. -/
def expandSeg (e : Env) (f : Fields) : Seg → Fields
  | .text t _ => f.add t
  | .var name true => f.add (e.get name)
  | .var name false => splitValue f (e.get name)
  | .elems name => addElems f (e.getArray name)

/-- The fields a word expands to. -/
def expand (e : Env) (w : Word) : List JSString :=
  (w.foldl (expandSeg e) ([], none)).flush.1

/-- The value a word expands to on the right of an assignment: no splitting. -/
def expandValue (e : Env) (w : Word) : JSString :=
  w.foldl (fun acc seg =>
    match seg with
    | .text t _ => acc ++ t
    | .var name _ => acc ++ e.get name
    | .elems name => acc ++ join (js " ") (e.getArray name)) []

/-- A valid variable name. -/
def isName (name : JSString) : Bool :=
  match name with
  | [] => false
  | c :: cs => isNameStart c && cs.all isNameChar

/-- The name and the value of a word of the form `NAME=value`. -/
def asAssignment (w : Word) : Option (JSString × Word) :=
  match w with
  | .text t false :: rest =>
    match t.span (fun c => c != 0x3D) with
    | (name, _ :: value) =>
      if isName name then some (name, .text value false :: rest) else none
    | _ => none
  | _ => none

/-- A command as it is executed: the arguments and the files its outputs are
redirected to. -/
structure Exec where
  /-- The command name and its arguments. -/
  argv : List JSString
  /-- The redirections: descriptor, append flag and file. -/
  redirects : List (Nat × Bool × JSString)
  deriving DecidableEq, Repr

/-- The assignments of a list of words that are all assignments. -/
def assignAll (e : Env) : List Word → Option Env
  | [] => some e
  | w :: ws =>
    match asAssignment w with
    | none => none
    | some (name, value) => assignAll (e.set name (expandValue e value)) ws

/-- The redirections of a command, expanded; a target must be one field. -/
def expandRedirects (e : Env) : List Redirect → Option (List (Nat × Bool × JSString))
  | [] => some []
  | r :: rs =>
    match expand e r.target, expandRedirects e rs with
    | [file], some rest => some ((r.fd, r.append, file) :: rest)
    | _, _ => none

/-- A command of a pipeline, expanded; assignments in front of the command
name do not change the arguments. -/
def expandCommand (e : Env) (c : Command) : Option Exec :=
  match (c.words.dropWhile fun w => (asAssignment w).isSome).flatMap (expand e),
      expandRedirects e c.redirects with
  | [], _ => none
  | _, none => none
  | argv, some redirects => some { argv := argv, redirects := redirects }

/-- The commands of a pipeline, expanded. -/
def expandPipeline (e : Env) : List Command → Option (List Exec)
  | [] => some []
  | c :: cs =>
    match expandCommand e c, expandPipeline e cs with
    | some x, some xs => some (x :: xs)
    | _, _ => none

/-- One item outside the loop syntax: the new variables and the pipeline run,
if any. -/
def runItem (e : Env) : Item → Option (Env × List (List Exec))
  | .array name elems =>
    match asAssignment name with
    | some (n, [.text [] false]) => some (e.setArray n (elems.flatMap (expand e)), [])
    | _ => none
  | .pipeline [c] =>
    if c.redirects = [] ∧ c.words.all (fun w => (asAssignment w).isSome) then
      (assignAll e c.words).map fun e1 => (e1, [])
    else (expandCommand e c).map fun x => (e, [[x]])
  | .pipeline cs => (expandPipeline e cs).map fun xs => (e, [xs])

/-- The items of a loop body, in order. -/
def runItems : Env → List Item → Option (Env × List (List Exec))
  | e, [] => some (e, [])
  | e, item :: rest =>
    match runItem e item with
    | none => none
    | some (e1, r1) =>
      match runItems e1 rest with
      | none => none
      | some (e2, r2) => some (e2, r1 ++ r2)

/-- The loop: the body once for each value, in order. -/
def runLoop (var : JSString) (body : List Item) : Env → List JSString →
    Option (Env × List (List Exec))
  | e, [] => some (e, [])
  | e, v :: vs =>
    match runItems (e.set var v) body with
    | none => none
    | some (e1, r1) =>
      match runLoop var body e1 vs with
      | none => none
      | some (e2, r2) => some (e2, r1 ++ r2)

/-- Where the interpreter stands with respect to the loop syntax. -/
inductive Loop where
  /-- Outside a loop. -/
  | outside
  /-- After `for NAME in WORDS`, before `do`. -/
  | header (var : JSString) (values : List JSString)
  /-- Between `do` and `done`, with the body read so far. -/
  | inside (var : JSString) (values : List JSString) (body : List Item)
  deriving DecidableEq, Repr

/-- The state of the interpreter. -/
structure Shell where
  /-- The variables. -/
  env : Env
  /-- The loop being read. -/
  loop : Loop
  /-- The pipelines run so far. -/
  ran : List (List Exec)
  /-- No error so far. -/
  ok : Bool
  deriving DecidableEq, Repr

/-- The word of a reserved word. -/
def keyword (s : String) : Word := [.text (js s) false]

/-- The item that consists of one reserved word. -/
def keywordItem (s : String) : Item := .pipeline [{ words := [keyword s], redirects := [] }]

/-- The variable and the words of a loop header `for NAME in WORDS`. -/
def asFor : Item → Option (JSString × List Word)
  | .pipeline [{ words := f :: [.text name false] :: i :: values, redirects := [] }] =>
    if f = keyword "for" ∧ i = keyword "in" ∧ isName name then some (name, values) else none
  | _ => none

/-- The first word of an item is the given reserved word. -/
def startsWith (s : String) : Item → Bool
  | .pipeline (c :: _) => c.words.head? = some (keyword s)
  | _ => false

/-- One item of the script. -/
def shellStep (s : Shell) (item : Item) : Shell :=
  if !s.ok then s
  else
    match s.loop with
    | .outside =>
      if startsWith "for" item then
        match asFor item with
        | some (var, values) => { s with loop := .header var (values.flatMap (expand s.env)) }
        | none => { s with ok := false }
      else if startsWith "do" item || startsWith "done" item then { s with ok := false }
      else
        match runItem s.env item with
        | some (e, r) => { s with env := e, ran := s.ran ++ r }
        | none => { s with ok := false }
    | .header var values =>
      if item = keywordItem "do" then { s with loop := .inside var values [] }
      else { s with ok := false }
    | .inside var values body =>
      if item = keywordItem "done" then
        match runLoop var body s.env values with
        | some (e, r) => { s with env := e, loop := .outside, ran := s.ran ++ r }
        | none => { s with ok := false }
      else if startsWith "for" item || startsWith "do" item || startsWith "done" item then
        { s with ok := false }
      else { s with loop := .inside var values (body ++ [item]) }

/-- The pipelines a script runs, in order, when every command succeeds. -/
def run (items : List Item) : Option (List (List Exec)) :=
  let s := items.foldl shellStep
    { env := { vars := [], arrays := [] }, loop := .outside, ran := [], ok := true }
  if s.ok ∧ s.loop = .outside then some s.ran else none

/-- The role of an argument in the usage of a tool. -/
inductive Arg where
  /-- A fixed word. -/
  | lit (s : String)
  /-- A path the tool reads. -/
  | input
  /-- A path the tool writes. -/
  | output
  /-- An argument that is no path. -/
  | other
  deriving Repr

/-- The paths read and written by a command line that fits a usage. -/
def matchArgs : List Arg → List JSString → Option (List JSString × List JSString)
  | [], [] => some ([], [])
  | .lit s :: more, a :: rest => if a = js s then matchArgs more rest else none
  | .input :: more, a :: rest => (matchArgs more rest).map fun rw => (a :: rw.1, rw.2)
  | .output :: more, a :: rest => (matchArgs more rest).map fun rw => (rw.1, a :: rw.2)
  | .other :: more, _ :: rest => matchArgs more rest
  | _, _ => none

/-- The paths read and written by a pipeline that fits the usages of its
commands; the files of redirections are written. -/
def matchPipeline : List (List Arg) → List Exec → Option (List JSString × List JSString)
  | [], [] => some ([], [])
  | u :: us, x :: xs =>
    match matchArgs u x.argv, matchPipeline us xs with
    | some rw, some rest =>
      some (rw.1 ++ rest.1, rw.2 ++ x.redirects.map (fun r => r.2.2) ++ rest.2)
    | _, _ => none
  | _, _ => none

/-- The command lines of the tools, with the role of each argument. -/
def usages : List (Tool × List (List Arg)) :=
  [ (.fastqc, [[.lit "fastqc", .lit "-o", .output, .input, .input]]),
    (.fastp, [[.lit "fastp", .lit "-i", .input, .lit "-o", .output, .lit "-I", .input,
               .lit "-O", .output, .lit "--thread", .lit "4", .lit "-h", .output]]),
    (.bowtie2, [[.lit "bowtie2", .lit "-p", .lit "64", .lit "-x", .input, .lit "-1", .input,
                 .lit "-2", .input, .lit "-S", .output]]),
    (.samtoolsView, [[.lit "samtools", .lit "view", .lit "-b", .input, .lit "-o", .output]]),
    (.samtoolsFlagstat, [[.lit "samtools", .lit "flagstat", .input]]),
    (.samtoolsSort, [[.lit "samtools", .lit "sort", .input, .lit "-o", .output]]),
    (.samtoolsRmdup, [[.lit "samtools", .lit "rmdup", .lit "-S", .input, .output]]),
    (.samtoolsDepthBelow 5,
      [[.lit "samtools", .lit "depth", .input],
       [.lit "awk", .lit "$3 < 5 \x7bprint $1\"\t\"$2\"\t\"$3\x7d"]]),
    (.convertBamToBed,
      [[.lit "python3", .lit "pipelines/convert_bam_to_bed.py", .other, .input, .output]]),
    (.bedtoolsMaskfasta,
      [[.lit "bedtools", .lit "maskfasta", .lit "-fi", .input, .lit "-bed", .input,
        .lit "-mc", .lit "N", .lit "-fo", .output]]),
    (.bcftoolsCall,
      [[.lit "bcftools", .lit "mpileup", .lit "-f", .input, .input],
       [.lit "bcftools", .lit "call", .lit "-cv", .lit "--ploidy", .lit "1", .lit "-Oz",
        .lit "-o", .output]]),
    (.bcftoolsIndex, [[.lit "bcftools", .lit "index", .input]]),
    (.bcftoolsConsensus, [[.lit "cat", .input], [.lit "bcftools", .lit "consensus", .input]]),
    (.multiqc, [[.lit "multiqc", .input, .input, .lit "-o", .output]]) ]

/-- The step of a pipeline: none for `echo`, `sleep` and `set`, which call no
tool; failure for a command line that fits no usage. -/
def classify (p : List Exec) : Option (Option Step) :=
  match p with
  | [x] =>
    if x.argv.head? = some (js "echo") ∨ x.argv.head? = some (js "sleep") ∨
        x.argv.head? = some (js "set") then some none
    else
      (usages.findSome? fun u =>
        (matchPipeline u.2 p).map fun rw => Step.mk u.1 rw.1 rw.2).map some
  | _ =>
    (usages.findSome? fun u =>
      (matchPipeline u.2 p).map fun rw => Step.mk u.1 rw.1 rw.2).map some

/-- The steps of the pipelines run. -/
def stepsOf : List (List Exec) → Option (List Step)
  | [] => some []
  | p :: ps =>
    match classify p, stepsOf ps with
    | some none, some rest => some rest
    | some (some st), some rest => some (st :: rest)
    | _, _ => none

/-- The steps a script runs, in order, when every command succeeds. -/
def shellSteps (script : JSString) : Option (List Step) :=
  ((lex script).bind parse).bind fun items => (run items).bind stepsOf

/-! ## The generated script as the shell reads it

The items of the template text after the interpolated paths, and what the
script runs; the theorems below show that the text reads as these items. -/

/-- Quoted literal text. -/
def q (s : String) : Seg := .text (js s) true

/-- Unquoted literal text. -/
def u (s : String) : Seg := .text (js s) false

/-- A variable expanded inside double quotes. -/
def v (name : String) : Seg := .var (js name) true

/-- A variable expanded outside quotes. -/
def uv (name : String) : Seg := .var (js name) false

/-- The items of the script before the loop, from the assignment of
`progress_file` on. -/
def introItems : List Item :=
  [ .pipeline [ ⟨[[u "progress_file=", q "", v "basedir", q "/progress.txt"]], []⟩ ],
    .pipeline [ ⟨[[u "echo"], [q "Pipeline started"]], [⟨1, false, [uv "progress_file"]⟩]⟩ ] ]

/-- The loop header `for sample_name in "${samples[@]}"`. -/
def forItem : Item :=
.pipeline [ ⟨[[u "for"], [u "sample_name"], [u "in"], [q "", Seg.elems (js "samples")]], []⟩ ]

/-- The items between `do` and `done`. -/
def bodyItems : List Item :=
  [ .pipeline [ ⟨[[u "sleep"], [u "2"]], []⟩ ],
    .pipeline [ ⟨[[u "echo"], [q "Step I: Quality Control and Preprocessing"]], [⟨1, true, [uv "progress_file"]⟩]⟩ ],
    .pipeline [ ⟨[[u "echo"], [q "Step 1.1: FastQC Quality Control Report for ", v "sample_name"]], [⟨1, true, [uv "progress_file"]⟩]⟩ ],
    .pipeline [ ⟨[[u "fastqc"], [u "-o"], [q "", v "basedir", q "/fastqc_output/"], [q "", v "basedir", q "/", v "sample_name", q "_1.fastq.gz"], [q "", v "basedir", q "/", v "sample_name", q "_2.fastq.gz"]], []⟩ ],
    .pipeline [ ⟨[[u "sleep"], [u "2"]], []⟩ ],
    .pipeline [ ⟨[[u "echo"], [q "Step-1.2: Trimmed Quality Control for ", v "sample_name"]], [⟨1, true, [uv "progress_file"]⟩]⟩ ],
    .pipeline [ ⟨[[u "fastp"], [u "-i"], [q "", v "basedir", q "/", v "sample_name", q "_1.fastq.gz"], [u "-o"], [q "", v "basedir", q "/", v "sample_name", q "_P1.fastq"], [u "-I"], [q "", v "basedir", q "/", v "sample_name", q "_2.fastq.gz"], [u "-O"], [q "", v "basedir", q "/", v "sample_name", q "_P2.fastq"], [u "--thread"], [u "4"], [u "-h"], [q "", v "basedir", q "/fastp-", v "sample_name", q ".html"]], [⟨2, false, [q "", v "basedir", q "/fastp-", v "sample_name", q ".log"]⟩]⟩ ],
    .pipeline [ ⟨[[u "sleep"], [u "2"]], []⟩ ],
    .pipeline [ ⟨[[u "echo"], [q "Step II: Read Alignment for ", v "sample_name"]], [⟨1, true, [uv "progress_file"]⟩]⟩ ],
    .pipeline [ ⟨[[u "echo"], [q "Step-2.1: Read Alignment for ", v "sample_name"]], [⟨1, true, [uv "progress_file"]⟩]⟩ ],
    .pipeline [ ⟨[[u "bowtie2"], [u "-p"], [u "64"], [u "-x"], [q "", v "GENOMEIDX1"], [u "-1"], [q "", v "basedir", q "/", v "sample_name", q "_P1.fastq"], [u "-2"], [q "", v "basedir", q "/", v "sample_name", q "_P2.fastq"], [u "-S"], [q "", v "basedir", q "/", v "sample_name", q ".sam"]], []⟩ ],
    .pipeline [ ⟨[[u "sleep"], [u "2"]], []⟩ ],
    .pipeline [ ⟨[[u "echo"], [q "Step-III: Coverage Analysis for ", v "sample_name"]], [⟨1, true, [uv "progress_file"]⟩]⟩ ],
    .pipeline [ ⟨[[u "echo"], [q "Step 3.1 Conversion Of Sam To BAM File for ", v "sample_name"]], [⟨1, true, [uv "progress_file"]⟩]⟩ ],
    .pipeline [ ⟨[[u "samtools"], [u "view"], [u "-b"], [q "", v "basedir", q "/", v "sample_name", q ".sam"], [u "-o"], [q "", v "basedir", q "/", v "sample_name", q ".bam"]], []⟩ ],
    .pipeline [ ⟨[[u "sleep"], [u "2"]], []⟩ ],
    .pipeline [ ⟨[[u "echo"], [q "Step-3.2: Alignment Metrics for ", v "sample_name"]], [⟨1, true, [uv "progress_file"]⟩]⟩ ],
    .pipeline [ ⟨[[u "samtools"], [u "flagstat"], [q "", v "basedir", q "/", v "sample_name", q ".bam"]], [⟨1, false, [q "", v "basedir", q "/", v "sample_name", q ".flagstat.txt"]⟩]⟩ ],
    .pipeline [ ⟨[[u "sleep"], [u "2"]], []⟩ ],
    .pipeline [ ⟨[[u "echo"], [q "Step-3.3: Conversion of BAM To Sorted BAM for ", v "sample_name"]], [⟨1, true, [uv "progress_file"]⟩]⟩ ],
    .pipeline [ ⟨[[u "samtools"], [u "sort"], [q "", v "basedir", q "/", v "sample_name", q ".bam"], [u "-o"], [q "", v "basedir", q "/", v "sample_name", q ".sorted.bam"]], []⟩ ],
    .pipeline [ ⟨[[u "echo"], [q "Step-3.4: Removing duplicate reads from Sorted Bam Files for ", v "sample_name"]], [⟨1, true, [uv "progress_file"]⟩]⟩ ],
    .pipeline [ ⟨[[u "samtools"], [u "rmdup"], [u "-S"], [q "", v "basedir", q "/", v "sample_name", q ".sorted.bam"], [q "", v "basedir", q "/", v "sample_name", q ".duprem.bam"]], []⟩ ],
    .pipeline [ ⟨[[u "sleep"], [u "2"]], []⟩ ],
    .pipeline [ ⟨[[u "echo"], [q "Step-3.5: Deriving Low Coverage Bed File for ", v "sample_name"]], [⟨1, true, [uv "progress_file"]⟩]⟩ ],
    .pipeline [ ⟨[[u "samtools"], [u "depth"], [q "", v "basedir", q "/", v "sample_name", q ".duprem.bam"]], []⟩, ⟨[[u "awk"], [q "$3 < 5 \x7bprint $1\"\t\"$2\"\t\"$3\x7d"]], [⟨1, false, [q "", v "basedir", q "/coverage_", v "sample_name", q ".txt"]⟩]⟩ ],
    .pipeline [ ⟨[[u "sleep"], [u "2"]], []⟩ ],
    .pipeline [ ⟨[[u "input_bam=", q "", v "basedir", q "/coverage_", v "sample_name", q ".txt"]], []⟩ ],
    .pipeline [ ⟨[[u "output_bed=", q "", v "basedir", q "/", v "sample_name", q ".bed"]], []⟩ ],
    .pipeline [ ⟨[[u "sleep"], [u "2"]], []⟩ ],
    .pipeline [ ⟨[[u "echo"], [q "Step-3.6: Extracting start end coordinates of missing read segments for ", v "sample_name"]], [⟨1, true, [uv "progress_file"]⟩]⟩ ],
    .pipeline [ ⟨[[u "python3"], [q "pipelines/convert_bam_to_bed.py"], [q "", v "sample_name"], [q "", v "input_bam"], [q "", v "output_bed"]], []⟩ ],
    .pipeline [ ⟨[[u "sleep"], [u "2"]], []⟩ ],
    .pipeline [ ⟨[[u "echo"], [q "Step-3.7: Performing N-masking for ", v "sample_name"]], [⟨1, true, [uv "progress_file"]⟩]⟩ ],
    .pipeline [ ⟨[[u "bedtools"], [u "maskfasta"], [u "-fi"], [q "", v "GENOMEIDX"], [u "-bed"], [q "", v "output_bed"], [u "-mc"], [u "N"], [u "-fo"], [q "", v "basedir", q "/", v "sample_name", q "_masked.fasta"]], []⟩ ],
    .pipeline [ ⟨[[u "echo"], [q "Step IV: Generation of VCF, VCF Index and Viral Genome for ", v "sample_name"]], [⟨1, true, [uv "progress_file"]⟩]⟩ ],
    .pipeline [ ⟨[[u "echo"], [q "Step-4: Generation of VCF for ", v "sample_name"]], [⟨1, true, [uv "progress_file"]⟩]⟩ ],
    .pipeline [ ⟨[[u "bcftools"], [u "mpileup"], [u "-f"], [q "", v "GENOMEIDX"], [q "", v "basedir", q "/", v "sample_name", q ".duprem.bam"]], []⟩, ⟨[[u "bcftools"], [u "call"], [u "-cv"], [u "--ploidy"], [u "1"], [u "-Oz"], [u "-o"], [q "", v "basedir", q "/", v "sample_name", q ".vcf.gz"]], []⟩ ],
    .pipeline [ ⟨[[u "sleep"], [u "2"]], []⟩ ],
    .pipeline [ ⟨[[u "echo"], [q "Step-4.1: Generation of VCF Index for ", v "sample_name"]], [⟨1, true, [uv "progress_file"]⟩]⟩ ],
    .pipeline [ ⟨[[u "bcftools"], [u "index"], [q "", v "basedir", q "/", v "sample_name", q ".vcf.gz"]], []⟩ ],
    .pipeline [ ⟨[[u "sleep"], [u "2"]], []⟩ ],
    .pipeline [ ⟨[[u "echo"], [q "Step-4.2: Generation of viral genome fasta for ", v "sample_name"]], [⟨1, true, [uv "progress_file"]⟩]⟩ ],
    .pipeline [ ⟨[[u "cat"], [q "", v "basedir", q "/", v "sample_name", q "_masked.fasta"]], []⟩, ⟨[[u "bcftools"], [u "consensus"], [q "", v "basedir", q "/", v "sample_name", q ".vcf.gz"]], [⟨1, false, [q "", v "basedir", q "/", v "sample_name", q "_genome.fa"]⟩]⟩ ],
    .pipeline [ ⟨[[u "sleep"], [u "2"]], []⟩ ],
    .pipeline [ ⟨[[u "echo"], [q "complete!"]], [⟨1, true, [uv "progress_file"]⟩]⟩ ] ]

/-- The items after `done`. -/
def outroItems : List Item :=
  [ .pipeline [ ⟨[[u "echo"], [q "Step 1.3: MultiQC Quality Control"]], [⟨1, true, [uv "progress_file"]⟩]⟩ ],
    .pipeline [ ⟨[[u "multiqc"], [q "", v "basedir", q "/fastqc_output/"], [q "", v "basedir", q "/"], [u "-o"], [q "", v "basedir", q "/multiqc_output/"]], []⟩ ] ]

/-- The characters that are not literal inside double quotes: the double
quote, the backslash, the dollar sign and the backquote. -/
def isDoubleQuoteSpecial (c : Nat) : Bool :=
  c = 0x22 || c = 0x5C || c = 0x24 || c = 0x60

/-- The characters that are not literal inside an unquoted word: blanks, line
feed, the operators, the quoting characters, the dollar sign, and the
characters of the expansions outside the model. -/
def isBareSpecial (c : Nat) : Bool :=
  c = 0x20 || c = 0x09 || c = 0x0A || c = 0x3B || c = 0x7C || c = 0x3E || c = 0x28 ||
  c = 0x29 || c = 0x5C || c = 0x27 || c = 0x22 || c = 0x24 || isUnsupported c

/-- A name that the shell reads literally inside double quotes. -/
def QuoteSafe (name : JSString) : Prop := ∀ c ∈ name, isDoubleQuoteSpecial c = false

/-- A path that the shell reads literally as part of an unquoted word. -/
def BareSafe (path : JSString) : Prop := ∀ c ∈ path, isBareSpecial c = false

instance (name : JSString) : Decidable (QuoteSafe name) :=
  inferInstanceAs (Decidable (∀ c ∈ name, isDoubleQuoteSpecial c = false))

instance (path : JSString) : Decidable (BareSafe path) :=
  inferInstanceAs (Decidable (∀ c ∈ path, isBareSpecial c = false))

/-- The items of a piece of script read on its own. -/
def lineItems (line : String) : List Item :=
  (parseFold ParseState.init [] (lexFold ⟨.normal, none⟩ [] (js line)).2).2

/-- A piece of script that starts and ends between two lines: read on its own,
it leaves both readers between two lines. -/
def lineClean (line : String) : Bool :=
  decide ((lexFold ⟨.normal, none⟩ [] (js line)).1 = ⟨.normal, none⟩) &&
  decide ((parseFold ParseState.init [] (lexFold ⟨.normal, none⟩ [] (js line)).2).1
    = ParseState.init)

/-- The tokens of the template text before `samplesList`. -/
def headTokens : List Token :=
  [ .newline, .newline, .word [u "set"], .word [u "-e"], .newline,
    .word [u "basedir=", q "uploads"], .newline, .arrayOpen [u "samples="], .newline ]

/-- The items of the script before the assignment of `progress_file`, for the
words of the array elements and the two interpolated paths. -/
def headItems (ws : List Word) (GENOMEIDX1 GENOMEIDX : JSString) : List Item :=
  [ .pipeline [⟨[[u "set"], [u "-e"]], []⟩],
    .pipeline [⟨[[u "basedir=", q "uploads"]], []⟩],
    .array [u "samples="] ws,
    .pipeline [⟨[[.text (js "GENOMEIDX1=" ++ GENOMEIDX1) false]], []⟩],
    .pipeline [⟨[[.text (js "GENOMEIDX=" ++ GENOMEIDX) false]], []⟩] ]

/-- The values of the array `samples` for the words of its elements: they are
expanded when only `basedir` is set. -/
def arrayValues (ws : List Word) : List JSString :=
  ws.flatMap (expand { vars := [(js "basedir", js "uploads")], arrays := [] })

/-- The variables when the loop starts. -/
def loopEnv (GENOMEIDX1 GENOMEIDX : JSString) (samples : List JSString) : Env :=
  { vars := [(js "progress_file", js "uploads/progress.txt"), (js "GENOMEIDX", GENOMEIDX),
             (js "GENOMEIDX1", GENOMEIDX1), (js "basedir", js "uploads")],
    arrays := [(js "samples", samples)] }

/-- The variables after an iteration of the loop. -/
def bodyEnv (GENOMEIDX1 GENOMEIDX : JSString) (samples : List JSString)
    (sample_name input_bam output_bed : JSString) : Env :=
  { vars := [(js "output_bed", output_bed), (js "input_bam", input_bam),
             (js "sample_name", sample_name),
             (js "progress_file", js "uploads/progress.txt"), (js "GENOMEIDX", GENOMEIDX),
             (js "GENOMEIDX1", GENOMEIDX1), (js "basedir", js "uploads")],
    arrays := [(js "samples", samples)] }

/-- The pipelines one iteration of the loop runs. -/
def bodyExecs (GENOMEIDX1 GENOMEIDX sample_name : JSString) : List (List Exec) :=
  match runItems ((loopEnv GENOMEIDX1 GENOMEIDX []).set (js "sample_name") sample_name)
      bodyItems with
  | some r => r.2
  | none => []

/-- The pipelines the script runs before the loop. -/
def introExecs : List (List Exec) :=
  [ [⟨[js "set", js "-e"], []⟩],
    [⟨[js "echo", js "Pipeline started"], [(1, false, js "uploads/progress.txt")]⟩] ]

/-- The pipelines the script runs after the loop. -/
def outroExecs : List (List Exec) :=
  [ [⟨[js "echo", js "Step 1.3: MultiQC Quality Control"],
      [(1, true, js "uploads/progress.txt")]⟩],
    [⟨[js "multiqc", js "uploads/fastqc_output/", js "uploads/", js "-o",
       js "uploads/multiqc_output/"], []⟩] ]

/-- The variables are those at the start of the loop or those after one of its
iterations. -/
def LoopVars (GENOMEIDX1 GENOMEIDX : JSString) (samples : List JSString) (e : Env) : Prop :=
  e = loopEnv GENOMEIDX1 GENOMEIDX samples ∨
  ∃ a b c, e = bodyEnv GENOMEIDX1 GENOMEIDX samples a b c

/-- The tokens of the head of the script generated for the sample `s1` and a
genome file named `my ref.fasta`. -/
def spaceTokens : List Token :=
  (lexFold ⟨.normal, none⟩ []
    (js (String.join scriptHead) ++ ((samplesList [js "s1"] ++ [0x0A]) ++
      (js "        )\n        GENOMEIDX1=" ++ (js "uploads/my ref" ++ (0x0A ::
        (js "        GENOMEIDX=" ++ (js "uploads/my ref.fasta" ++ [0x0A])))))))).2

/-- The items of the head of that script. -/
def spaceItems : List Item := (parseFold ParseState.init [] spaceTokens).2

/-! ## The progress stream: lemmas and theorems -/

theorem split_ne_nil (s : JSString) : split s ≠ [] := by
  induction s with
  | nil => simp [split]
  | cons c cs ih =>
    unfold split
    split_ifs
    · simp
    · cases h : split cs <;> simp

theorem split_append_lf (a b : JSString) : split (a ++ 0x0A :: b) = split a ++ split b := by
  induction a with
  | nil => simp [split]
  | cons c cs ih =>
    simp only [List.cons_append]
    by_cases hc : c = 0x0A
    · simp [split, hc, ih]
    · have hne := split_ne_nil cs
      cases h : split cs with
      | nil => exact absurd h hne
      | cons l ls => simp [split, hc, ih, h]

theorem split_no_lf (t : JSString) (h : 0x0A ∉ t) : split t = [t] := by
  induction t with
  | nil => simp [split]
  | cons c cs ih =>
    have hc : c ≠ 0x0A := fun e => h (by simp [e])
    have hcs : 0x0A ∉ cs := fun e => h (by simp [e])
    simp [split, hc, ih hcs]

theorem trim_ne_nil_iff (l : JSString) : (trim l != []) = nonBlank l := by
  have key : trim l = [] ↔ ∀ x ∈ l, isWhiteSpace x = true := by
    unfold trim
    rw [List.reverse_eq_nil_iff, List.dropWhile_eq_nil_iff]
    constructor
    · intro h x hx
      by_contra hn
      have hne : l.dropWhile isWhiteSpace ≠ [] := by
        intro e
        rw [List.dropWhile_eq_nil_iff] at e
        exact hn (e x hx)
      have hh := List.head_dropWhile_not isWhiteSpace l hne
      have hm : (l.dropWhile isWhiteSpace).head hne ∈ (l.dropWhile isWhiteSpace).reverse :=
        List.mem_reverse.mpr (List.head_mem hne)
      have := h _ hm
      simp [this] at hh
    · intro h x hx
      exact h x ((List.dropWhile_sublist _).subset (List.mem_reverse.mp hx))
  by_cases hb : nonBlank l = true
  · rw [hb]
    simp only [nonBlank, List.any_eq_true, Bool.not_eq_true'] at hb
    obtain ⟨x, hx, hxw⟩ := hb
    have : trim l ≠ [] := fun e => by
      have := key.mp e x hx
      simp [this] at hxw
    simpa using this
  · have hb' : nonBlank l = false := by simpa using hb
    rw [hb']
    have : trim l = [] := by
      apply key.mpr
      intro x hx
      by_contra hn
      apply hb
      simp only [nonBlank, List.any_eq_true, Bool.not_eq_true']
      exact ⟨x, hx, by simpa using hn⟩
    simp [this]


theorem nonBlank_ne_nil (l : JSString) (h : nonBlank l = true) : l ≠ [] := by
  intro e
  simp [e, nonBlank] at h

theorem join_eq_nil_iff (sep : JSString) (ls : List JSString) (h : ∀ l ∈ ls, l ≠ []) :
    join sep ls = [] ↔ ls = [] := by
  cases ls with
  | nil => simp [join]
  | cons l rest =>
    have hl : l ≠ [] := h l (by simp)
    cases rest with
    | nil => simp [join, hl]
    | cons l2 rest2 => simp [join, hl]

theorem filter_trim_eq (ls : List JSString) :
    ls.filter (fun line => trim line != []) = ls.filter nonBlank := by
  congr 1
  funext line
  exact trim_ne_nil_iff line

theorem event_eq_linesEvent (text : JSString) :
    (if join (js "\n") ((split text).filter fun line => trim line != []) != [] then
        some (js "data: " ++ join (js "\n") ((split text).filter fun line => trim line != [])
          ++ js "\n\n")
      else none) = linesEvent (nonBlankLines text) := by
  rw [filter_trim_eq]
  unfold linesEvent nonBlankLines
  have hne : ∀ l ∈ (split text).filter nonBlank, l ≠ [] := fun l hl =>
    nonBlank_ne_nil l (List.mem_filter.mp hl).2
  have := join_eq_nil_iff (js "\n") _ hne
  by_cases h : (split text).filter nonBlank = []
  · simp [h, join]
  · have hj : join (js "\n") ((split text).filter nonBlank) ≠ [] := fun e => h (this.mp e)
    simp [h, hj]

theorem sendProgress_content (fileOffset : Nat) (data : JSString) :
    sendProgress fileOffset (.content data) =
      if data.length > fileOffset then
        (data.length, linesEvent (nonBlankLines (data.drop fileOffset)))
      else (fileOffset, none) := by
  simp only [sendProgress]
  by_cases h : data.length > fileOffset
  · rw [if_pos h, if_pos h, event_eq_linesEvent]
  · rw [if_neg h, if_neg h]

theorem nonBlankLines_nil : nonBlankLines [] = [] := by
  simp [nonBlankLines, split, nonBlank]

theorem sendProgress_append (old new : JSString) :
    sendProgress old.length (.content (old ++ new)) =
      ((old ++ new).length, linesEvent (nonBlankLines new)) := by
  rw [sendProgress_content]
  by_cases h : new = []
  · subst h
    simp [nonBlankLines_nil, linesEvent]
  · have : (old ++ new).length > old.length := by
      have := List.length_pos.mpr h
      simp; omega
    rw [if_pos this, List.drop_left]

theorem subscriber_chain (prev : JSString) (cs : List JSString)
    (h : List.Chain (fun a b => a <+: b) prev cs) :
    subscriber prev.length (cs.map Poll.content) =
      List.zipWith (fun p c => linesEvent (nonBlankLines (c.drop p.length))) (prev :: cs) cs := by
  induction cs generalizing prev with
  | nil => simp [subscriber]
  | cons c rest ih =>
    rw [List.chain_cons] at h
    obtain ⟨⟨d, rfl⟩, hrest⟩ := h
    simp only [List.map_cons, subscriber, sendProgress_append, List.zipWith_cons_cons,
      List.drop_left]
    rw [ih _ hrest]


theorem subscriber_from_zero (cs : List JSString)
    (happend : List.Chain' (fun a b => a <+: b) cs) :
    subscriber 0 (cs.map Poll.content) =
      List.zipWith (fun p c => linesEvent (nonBlankLines (c.drop p.length))) ([] :: cs) cs := by
  have h : List.Chain (fun a b => a <+: b) [] cs := by
    cases cs with
    | nil => exact List.Chain.nil
    | cons c rest => exact List.Chain.cons (List.nil_prefix) happend
  exact subscriber_chain [] cs h

/-- Claim C6: a subscriber that starts at offset 0 and polls an append-only
sequence of log contents writes, at each poll, the event made of the non-blank
lines of the part appended since the previous poll, joined by newlines: the
first poll replays the whole first content, a poll after growth by `d` carries
the non-blank lines of `d`, and a poll without growth writes nothing. -/
theorem progress_delta_delivery (cs : List JSString)
    (happend : List.Chain' (fun a b => a <+: b) cs) :
    (∀ c, cs[0]? = some c →
      (subscriber 0 (cs.map Poll.content))[0]? = some (linesEvent (nonBlankLines c))) ∧
    (∀ k prev d, cs[k]? = some prev → cs[k + 1]? = some (prev ++ d) →
      (subscriber 0 (cs.map Poll.content))[k + 1]? = some (linesEvent (nonBlankLines d))) ∧
    (∀ k c, cs[k]? = some c → cs[k + 1]? = some c →
      (subscriber 0 (cs.map Poll.content))[k + 1]? = some none) := by
  rw [subscriber_from_zero cs happend]
  have step : ∀ k prev d, cs[k]? = some prev → cs[k + 1]? = some (prev ++ d) →
      (List.zipWith (fun p c => linesEvent (nonBlankLines (c.drop p.length))) ([] :: cs) cs)[k + 1]?
        = some (linesEvent (nonBlankLines d)) := by
    intro k prev d h1 h2
    simp [List.getElem?_zipWith, h1, h2]
  refine ⟨?_, step, ?_⟩
  · intro c h
    simp [List.getElem?_zipWith, h]
  · intro k c h1 h2
    have := step k c [] h1 (by simpa using h2)
    rw [this, nonBlankLines_nil]
    rfl

/-- Instance of C6: the second poll carries the one non-blank line appended. -/
theorem progress_delta_delivery_witness :
    (subscriber 0 ([js "a\n", js "a\n\nb\n", js "a\n\nb\n"].map Poll.content))[1]? =
      some (some (js "data: b\n\n")) :=
  (progress_delta_delivery [js "a\n", js "a\n\nb\n", js "a\n\nb\n"]
    (List.Chain.cons ⟨js "\nb\n", rfl⟩ (List.Chain.cons ⟨[], rfl⟩ List.Chain.nil))).2.1
    0 (js "a\n") (js "\nb\n") rfl rfl

/-- Claim C7 fails as stated: the appended part `ab` does not end with a line
feed, yet the first poll pushes it, and the line `abcd` arrives in two
events. -/
theorem partial_line_counterexample :
    subscriber 0 [.content (js "ab"), .content (js "abcd\n")] =
      [some (js "data: ab\n\n"), some (js "data: cd\n\n")] := by
  decide

theorem nonBlankLines_append_partial (body t : JSString)
    (hbody : body = [] ∨ ∃ a, body = a ++ [0x0A])
    (hlf : 0x0A ∉ t) (hnb : nonBlank t = true) :
    nonBlankLines (body ++ t) = nonBlankLines body ++ [t] := by
  have hnil : nonBlank [] = false := rfl
  rcases hbody with rfl | ⟨a, rfl⟩
  · simp [nonBlankLines, split_no_lf t hlf, hnb, split, hnil]
  · have e1 : a ++ [0x0A] ++ t = a ++ 0x0A :: t := by simp
    have e2 : a ++ [0x0A] = a ++ 0x0A :: [] := rfl
    rw [e1]
    unfold nonBlankLines
    rw [split_append_lf, e2, split_append_lf, split_no_lf t hlf]
    simp [split, hnb, hnil]

/-- Claim C7, amended: nothing is held back. When the appended part ends with
a non-blank partial line `t`, the event of that poll carries the non-blank
complete lines followed by `t`, and the offset moves to the end of the
content. -/
theorem partial_line_is_pushed (old body t : JSString)
    (hbody : body = [] ∨ ∃ a, body = a ++ [0x0A])
    (hlf : 0x0A ∉ t) (hnb : nonBlank t = true) :
    sendProgress old.length (.content (old ++ (body ++ t))) =
      ((old ++ (body ++ t)).length,
       some (js "data: " ++ join (js "\n") (nonBlankLines body ++ [t]) ++ js "\n\n")) := by
  rw [sendProgress_append, nonBlankLines_append_partial body t hbody hlf hnb]
  simp [linesEvent]

/-- Instance of the amended C7. -/
theorem partial_line_is_pushed_witness :
    sendProgress 2 (.content (js "a\nb\ncd")) = (6, some (js "data: b\ncd\n\n")) :=
  partial_line_is_pushed (js "a\n") (js "b\n") (js "cd") (Or.inr ⟨js "b", rfl⟩)
    (by decide) (by decide)

theorem offsets_chain (fileOffset : Nat) (polls : List Poll) :
    List.Chain (fun a b => a ≤ b) fileOffset (offsets fileOffset polls) := by
  induction polls generalizing fileOffset with
  | nil => exact List.Chain.nil
  | cons p ps ih =>
    refine List.Chain.cons ?_ (ih _)
    cases p with
    | missing => simp [sendProgress]
    | unreadable => simp [sendProgress]
    | content data =>
      rw [sendProgress_content]
      split_ifs with h
      · exact Nat.le_of_lt h
      · exact Nat.le_refl _

/-- Claim C10: over any sequence of polls the offset never decreases; a poll
that reads `data` leaves the offset at the maximum of the old offset and the
length of `data`; content no longer than the offset gives no event and the
same offset; longer content gives the event of the characters beyond the old
offset. -/
theorem offset_invariant (fileOffset : Nat) (polls : List Poll) :
    List.Chain (fun a b => a ≤ b) fileOffset (offsets fileOffset polls) ∧
    (∀ off data, (sendProgress off (.content data)).1 = max off data.length) ∧
    (∀ off data, data.length ≤ off → sendProgress off (.content data) = (off, none)) ∧
    (∀ off data, off < data.length →
      sendProgress off (.content data) =
        (data.length, linesEvent (nonBlankLines (data.drop off)))) := by
  refine ⟨offsets_chain fileOffset polls, ?_, ?_, ?_⟩
  · intro off data
    rw [sendProgress_content]
    split_ifs with h
    · simp; omega
    · simp; omega
  · intro off data h
    rw [sendProgress_content, if_neg (by omega)]
  · intro off data h
    rw [sendProgress_content, if_pos h]

/-- Instance of C10: a truncated log, then a log grown past the offset. -/
theorem offset_invariant_witness :
    sendProgress 5 (.content (js "abc")) = (5, none) ∧
    sendProgress 2 (.content (js "abc\n")) = (4, some (js "data: c\n\n")) :=
  ⟨(offset_invariant 0 []).2.2.1 5 (js "abc") (by decide),
   (offset_invariant 0 []).2.2.2 2 (js "abc\n") (by decide)⟩

/-! ## The pairing loop and the handler -/

/-- A list of odd length, such as one genome file with an even number of read
files, never lets the loop run to its end. -/
theorem pairingLoop_odd :
    ∀ (files sampleFiles : List JSString) (d : Dir), files.length % 2 = 1 →
      (pairingLoop files sampleFiles d).samples = none
  | [], _, _, h => by simp at h
  | [_], _, _, _ => rfl
  | file1 :: file2 :: rest, sampleFiles, d, h => by
    have hrest : rest.length % 2 = 1 := by
      simp only [List.length_cons] at h
      omega
    unfold pairingLoop
    split_ifs
    · exact pairingLoop_odd rest _ d hrest
    · simp only []
      cases h1 : renameSync file1 (replaceFirst (js "_R1.fastq.gz") file1 ++ js "_1.fastq.gz") d with
      | none => rfl
      | some d1 =>
        simp only []
        cases h2 : renameSync file2 (replaceFirst (js "_R1.fastq.gz") file1 ++ js "_2.fastq.gz") d1 with
        | none => rfl
        | some d2 => exact pairingLoop_odd rest _ d2 hrest
    · rfl

/-- Claim C1, evaluated on the code: for the upload `ref.fasta`,
`s1_1.fastq.gz`, `s1_2.fastq.gz` the pairing loop yields no sample list (it
pairs the genome file with `s1_1.fastq.gz`), and the handler answers with the
mismatched-pair error, or with the index error when the build fails. -/
theorem reference_example_rejected (exec : JSString → Dir → ExecResult) (s : Store) :
    (∀ d, (pairingLoop [js "ref.fasta", js "s1_1.fastq.gz", js "s1_2.fastq.gz"] [] d).samples
      = none) ∧
    (upload exec [js "ref.fasta", js "s1_1.fastq.gz", js "s1_2.fastq.gz"] s).response =
      (if (exec (bowtieBuildCmd (js "ref.fasta")) s.dir).error then some Response.indexError
       else some Response.mismatch) := by
  have hg : genomeFile [js "ref.fasta", js "s1_1.fastq.gz", js "s1_2.fastq.gz"]
      = some (js "ref.fasta") := by decide
  have hl : ∀ d, pairingLoop [js "ref.fasta", js "s1_1.fastq.gz", js "s1_2.fastq.gz"] [] d
      = .mismatch d := by
    intro d
    have h1 : ¬ replaceFirst (js "_1.fastq.gz") (js "ref.fasta")
        = replaceFirst (js "_2.fastq.gz") (js "s1_1.fastq.gz") := by decide
    have h2 : ¬ replaceFirst (js "_R1.fastq.gz") (js "ref.fasta")
        = replaceFirst (js "_R2.fastq.gz") (js "s1_1.fastq.gz") := by decide
    rw [pairingLoop, if_neg h1, if_neg h2]
  refine ⟨fun d => by rw [hl d]; rfl, ?_⟩
  unfold upload
  rw [hg]
  simp only []
  split_ifs with he
  · rfl
  · rw [hl]
    rfl

/-- Claim C3, evaluated on the code: a last file without partner makes the
loop throw a TypeError, and so the upload `x_1.fastq.gz.fa`, `x_2.fastq.gz.fa`,
`s_1.fastq.gz` (one file that is no genome) ends with that exception instead
of the mismatched-pair response. -/
theorem trailing_file_type_error (s : Store) :
    (∀ file1 sampleFiles d, pairingLoop [file1] sampleFiles d = .typeError d) ∧
    (upload buildOk [js "x_1.fastq.gz.fa", js "x_2.fastq.gz.fa", js "s_1.fastq.gz"] s).exception
      = some Exception.typeError := by
  refine ⟨fun _ _ _ => rfl, ?_⟩
  have hg : genomeFile [js "x_1.fastq.gz.fa", js "x_2.fastq.gz.fa", js "s_1.fastq.gz"]
      = some (js "x_1.fastq.gz.fa") := by decide
  have h1 : replaceFirst (js "_1.fastq.gz") (js "x_1.fastq.gz.fa")
      = replaceFirst (js "_2.fastq.gz") (js "x_2.fastq.gz.fa") := by decide
  unfold upload
  rw [hg]
  simp only [buildOk, Bool.false_eq_true, if_false]
  rw [pairingLoop, if_pos h1, pairingLoop]
  rfl

/-- Claim C9, evaluated on the code: with `g.fa` and `g.fa_2.fastq.gz` stored
in the upload directory, resolution succeeds with the sample `g.fa` and the
pipeline is launched, although no file `g.fa_1.fastq.gz` exists. -/
theorem sample_read_file_missing :
    (∀ f ∈ [js "g.fa", js "g.fa_2.fastq.gz"],
      (diskStorage [(js "g.fa", js "ACGT"), (js "g.fa_2.fastq.gz", js "reads")] emptyDir f).isSome) ∧
    (pairingLoop [js "g.fa", js "g.fa_2.fastq.gz"] []
      (diskStorage [(js "g.fa", js "ACGT"), (js "g.fa_2.fastq.gz", js "reads")] emptyDir)).samples
      = some [js "g.fa"] ∧
    (pairingLoop [js "g.fa", js "g.fa_2.fastq.gz"] []
      (diskStorage [(js "g.fa", js "ACGT"), (js "g.fa_2.fastq.gz", js "reads")] emptyDir)).dir
      (js "g.fa" ++ js "_1.fastq.gz") = none ∧
    (upload buildOk [js "g.fa", js "g.fa_2.fastq.gz"]
      { dir := diskStorage [(js "g.fa", js "ACGT"), (js "g.fa_2.fastq.gz", js "reads")] emptyDir,
        execs := [] }).response = some Response.started := by
  refine ⟨by decide, by decide, by decide, by decide⟩

theorem renameSync_eq_some (old new : JSString) (d : Dir) (h : (d old).isSome) :
    ∃ d', renameSync old new d = some d' := by
  unfold renameSync
  cases hd : d old with
  | none => simp [hd] at h
  | some c => exact ⟨_, rfl⟩

theorem renameSync_keeps (old new : JSString) (d d' : Dir) (h : renameSync old new d = some d')
    (f : JSString) (hf : f ≠ old) (hp : (d f).isSome) : (d' f).isSome := by
  unfold renameSync at h
  cases hd : d old with
  | none => simp [hd] at h
  | some c =>
    simp only [hd, Option.some.injEq] at h
    subst h
    by_cases e : f = new
    · simp [e]
    · simp [e, hf, hp]

theorem renameSync_other (old new : JSString) (d d' : Dir) (h : renameSync old new d = some d')
    (p : JSString) (h1 : p ≠ old) (h2 : p ≠ new) : d' p = d p := by
  unfold renameSync at h
  cases hd : d old with
  | none => simp [hd] at h
  | some c =>
    simp only [hd, Option.some.injEq] at h
    subst h
    simp [h1, h2]

theorem pairMismatch_iff (file1 file2 : JSString) :
    pairMismatch file1 file2 = true ↔
      replaceFirst (js "_1.fastq.gz") file1 ≠ replaceFirst (js "_2.fastq.gz") file2 ∧
      replaceFirst (js "_R1.fastq.gz") file1 ≠ replaceFirst (js "_R2.fastq.gz") file2 := by
  simp [pairMismatch]

theorem pairingLoop_mismatch :
    ∀ (files sampleFiles : List JSString) (d : Dir), files.Nodup →
      (∀ f ∈ files, (d f).isSome) →
      (∃ k file1 file2, files[2 * k]? = some file1 ∧ files[2 * k + 1]? = some file2 ∧
        pairMismatch file1 file2 = true) →
      ∃ d', pairingLoop files sampleFiles d = .mismatch d'
  | [], _, _, _, _, ⟨k, f1, f2, h1, _, _⟩ => by simp at h1
  | [_], _, _, _, _, ⟨k, f1, f2, _, h2, _⟩ => by simp at h2
  | file1 :: file2 :: rest, sampleFiles, d, hnd, hp, ⟨k, g1, g2, h1, h2, hm⟩ => by
    have hnd1 : file1 ∉ file2 :: rest := (List.nodup_cons.mp hnd).1
    have hnd2 : (file2 :: rest).Nodup := (List.nodup_cons.mp hnd).2
    have hnd3 : file2 ∉ rest := (List.nodup_cons.mp hnd2).1
    have hnd4 : rest.Nodup := (List.nodup_cons.mp hnd2).2
    have h12 : file2 ≠ file1 := fun e => hnd1 (by simp [e])
    have hrest : 0 < k → ∃ j file1 file2, rest[2 * j]? = some file1 ∧
        rest[2 * j + 1]? = some file2 ∧ pairMismatch file1 file2 = true := by
      intro hk
      obtain ⟨j, rfl⟩ : ∃ j, k = j + 1 := ⟨k - 1, by omega⟩
      refine ⟨j, g1, g2, ?_, ?_, hm⟩
      · have e : 2 * (j + 1) = 2 * j + 1 + 1 := by ring
        rw [e] at h1
        simpa using h1
      · have e : 2 * (j + 1) + 1 = 2 * j + 1 + 1 + 1 := by ring
        rw [e] at h2
        simpa using h2
    have hzero : k = 0 → pairMismatch file1 file2 = true := by
      intro hk
      subst hk
      simp at h1 h2
      rw [h1, h2]
      exact hm
    unfold pairingLoop
    split_ifs with c1 c2
    · have hk : 0 < k := by
        by_contra hk0
        have := (pairMismatch_iff _ _).mp (hzero (by omega))
        exact this.1 c1
      exact pairingLoop_mismatch rest _ d hnd4 (fun f hf => hp f (by simp [hf])) (hrest hk)
    · have hk : 0 < k := by
        by_contra hk0
        have := (pairMismatch_iff _ _).mp (hzero (by omega))
        exact this.2 c2
      simp only []
      obtain ⟨d1, e1⟩ := renameSync_eq_some file1
        (replaceFirst (js "_R1.fastq.gz") file1 ++ js "_1.fastq.gz") d (hp file1 (by simp))
      rw [e1]
      simp only []
      have hf2 : (d1 file2).isSome := renameSync_keeps _ _ _ _ e1 file2 h12 (hp file2 (by simp))
      obtain ⟨d2, e2⟩ := renameSync_eq_some file2
        (replaceFirst (js "_R1.fastq.gz") file1 ++ js "_2.fastq.gz") d1 hf2
      rw [e2]
      simp only []
      refine pairingLoop_mismatch rest _ d2 hnd4 ?_ (hrest hk)
      intro f hf
      have hne1 : f ≠ file1 := fun e => hnd1 (by simp [← e, hf])
      have hne2 : f ≠ file2 := fun e => hnd3 (by simpa [e] using hf)
      exact renameSync_keeps _ _ _ _ e2 f hne2
        (renameSync_keeps _ _ _ _ e1 f hne1 (hp f (by simp [hf])))
    · exact ⟨d, rfl⟩

theorem endsWith_fastq_append (n tag : JSString) :
    endsWith (n ++ (tag ++ js ".fastq.gz")) (js ".fastq.gz") = true := by
  unfold endsWith
  rw [List.isSuffixOf_iff_suffix]
  exact ⟨n ++ tag, by simp⟩

theorem pairingLoop_other (p : JSString) (hp : endsWith p (js ".fastq.gz") = false) :
    ∀ (files sampleFiles : List JSString) (d : Dir), p ∉ files →
      (pairingLoop files sampleFiles d).dir p = d p
  | [], _, _, _ => rfl
  | [_], _, _, _ => rfl
  | file1 :: file2 :: rest, sampleFiles, d, hmem => by
    have hp1 : p ≠ file1 := fun e => hmem (by simp [e])
    have hp2 : p ≠ file2 := fun e => hmem (by simp [e])
    have hrest : p ∉ rest := fun e => hmem (by simp [e])
    have hnew : ∀ (n tag : JSString), p ≠ n ++ (tag ++ js ".fastq.gz") := by
      intro n tag e
      rw [e, endsWith_fastq_append] at hp
      exact absurd hp (by simp)
    have e1 : js "_1.fastq.gz" = js "_1" ++ js ".fastq.gz" := by decide
    have e2 : js "_2.fastq.gz" = js "_2" ++ js ".fastq.gz" := by decide
    unfold pairingLoop
    split_ifs
    · exact pairingLoop_other p hp rest _ d hrest
    · simp only []
      cases h1 : renameSync file1 (replaceFirst (js "_R1.fastq.gz") file1 ++ js "_1.fastq.gz") d with
      | none => rfl
      | some d1 =>
        simp only []
        have hd1 : d1 p = d p :=
          renameSync_other _ _ _ _ h1 p hp1 (by rw [e1]; exact hnew _ _)
        cases h2 : renameSync file2 (replaceFirst (js "_R1.fastq.gz") file1 ++ js "_2.fastq.gz") d1 with
        | none => simpa [LoopResult.dir] using hd1
        | some d2 =>
          simp only []
          have hd2 : d2 p = d1 p :=
            renameSync_other _ _ _ _ h2 p hp2 (by rw [e2]; exact hnew _ _)
          rw [pairingLoop_other p hp rest _ d2 hrest, hd2, hd1]
    · rfl

theorem upload_of_genome (exec : JSString → Dir → ExecResult) (files : List JSString)
    (s : Store) (genome : JSString) (hgenome : genomeFile files = some genome) :
    upload exec files s =
      if (exec (bowtieBuildCmd genome) s.dir).error then
        .responded .indexError
          { dir := (exec (bowtieBuildCmd genome) s.dir).dir,
            execs := s.execs ++ [bowtieBuildCmd genome] }
      else
        match pairingLoop files [] (exec (bowtieBuildCmd genome) s.dir).dir with
        | .mismatch d => .responded .mismatch { dir := d, execs := s.execs ++ [bowtieBuildCmd genome] }
        | .typeError d => .threw .typeError { dir := d, execs := s.execs ++ [bowtieBuildCmd genome] }
        | .renameError d =>
          .threw .renameError { dir := d, execs := s.execs ++ [bowtieBuildCmd genome] }
        | .done sampleFiles d =>
          .responded .started
            { dir := writeFileSync (js "progress.txt") []
                (writeFileSync (js "pipeline.sh")
                  (pipelineScriptContent sampleFiles (indexBasePath genome)
                    (genomeFilePath genome)) d),
              execs := s.execs ++ [bowtieBuildCmd genome] ++ [runScriptCmd] } := by
  unfold upload
  rw [hgenome]

theorem upload_no_genome (exec : JSString → Dir → ExecResult) (files : List JSString)
    (s : Store) (h : genomeFile files = none) :
    upload exec files s = .responded .noGenome s := by
  unfold upload
  rw [h]

theorem upload_response_noGenome_iff (exec : JSString → Dir → ExecResult)
    (files : List JSString) (s : Store) :
    (upload exec files s).response = some Response.noGenome ↔ genomeFile files = none := by
  constructor
  · intro h
    cases hg : genomeFile files with
    | none => rfl
    | some genome =>
      rw [upload_of_genome exec files s genome hg] at h
      split_ifs at h with he
      · simp [Outcome.response] at h
      · cases hl : pairingLoop files [] (exec (bowtieBuildCmd genome) s.dir).dir <;>
          simp [hl, Outcome.response] at h
  · intro h
    rw [upload_no_genome exec files s h]
    rfl

/-- Claim C2 fails as stated, in two ways. Without a genome file the pair
`a_1.fastq.gz`, `b_2.fastq.gz`, which differs under both conventions, is
answered with the no-genome error. And in the second upload the pair at
positions 4 and 5 differs under both conventions, yet the request ends with
the exception of `fs.renameSync` at the repeated pair before it, and no
response is sent. -/
theorem mismatch_not_reported :
    (pairMismatch (js "a_1.fastq.gz") (js "b_2.fastq.gz") = true ∧
     (upload buildOk [js "a_1.fastq.gz", js "b_2.fastq.gz"]
        { dir := diskStorage [(js "a_1.fastq.gz", js "r1"), (js "b_2.fastq.gz", js "r2")]
            emptyDir,
          execs := [] }).response = some Response.noGenome) ∧
    ([js "a_R1.fastq.gz", js "a_R2.fastq.gz", js "a_R1.fastq.gz", js "a_R2.fastq.gz",
        js "x.fa", js "y.fa"][4]? = some (js "x.fa") ∧
     [js "a_R1.fastq.gz", js "a_R2.fastq.gz", js "a_R1.fastq.gz", js "a_R2.fastq.gz",
        js "x.fa", js "y.fa"][5]? = some (js "y.fa") ∧
     pairMismatch (js "x.fa") (js "y.fa") = true) ∧
    (upload buildOk
      [js "a_R1.fastq.gz", js "a_R2.fastq.gz", js "a_R1.fastq.gz", js "a_R2.fastq.gz",
        js "x.fa", js "y.fa"]
      { dir := diskStorage
          [(js "a_R1.fastq.gz", js "r1"), (js "a_R2.fastq.gz", js "r2"),
           (js "a_R1.fastq.gz", js "r1"), (js "a_R2.fastq.gz", js "r2"),
           (js "x.fa", js "ACGT"), (js "y.fa", js "ACGT")] emptyDir,
        execs := [] }).response = none ∧
    (upload buildOk
      [js "a_R1.fastq.gz", js "a_R2.fastq.gz", js "a_R1.fastq.gz", js "a_R2.fastq.gz",
        js "x.fa", js "y.fa"]
      { dir := diskStorage
          [(js "a_R1.fastq.gz", js "r1"), (js "a_R2.fastq.gz", js "r2"),
           (js "a_R1.fastq.gz", js "r1"), (js "a_R2.fastq.gz", js "r2"),
           (js "x.fa", js "ACGT"), (js "y.fa", js "ACGT")] emptyDir,
        execs := [] }).exception = some Exception.renameError := by
  refine ⟨⟨by decide, by decide⟩, ⟨by decide, by decide, by decide⟩, by decide, by decide⟩

/-- Claim C2, amended: when a genome is found, the index build succeeds, the
uploaded names are pairwise distinct and all present in the upload directory,
and some pair at positions `2k`, `2k+1` differs under both conventions, the
handler answers `File pairs do not match.`, the loop yields no sample list, no
run is started, and every file outside the upload list whose name does not end
in `.fastq.gz` (the pipeline script, the progress log) is left as it was. -/
theorem mismatched_pair_rejected (exec : JSString → Dir → ExecResult) (files : List JSString)
    (s : Store) (genome : JSString)
    (hgenome : genomeFile files = some genome)
    (hbuilt : (exec (bowtieBuildCmd genome) s.dir).error = false)
    (hnodup : files.Nodup)
    (hpresent : ∀ f ∈ files, ((exec (bowtieBuildCmd genome) s.dir).dir f).isSome)
    (hpair : ∃ k file1 file2, files[2 * k]? = some file1 ∧ files[2 * k + 1]? = some file2 ∧
      pairMismatch file1 file2 = true) :
    (upload exec files s).response = some Response.mismatch ∧
    (upload exec files s).response.map Response.body = some (js "File pairs do not match.") ∧
    (pairingLoop files [] (exec (bowtieBuildCmd genome) s.dir).dir).samples = none ∧
    (upload exec files s).store.execs = s.execs ++ [bowtieBuildCmd genome] ∧
    ∀ p, p ∉ files → endsWith p (js ".fastq.gz") = false →
      (upload exec files s).store.dir p = (exec (bowtieBuildCmd genome) s.dir).dir p := by
  obtain ⟨d', hd'⟩ := pairingLoop_mismatch files [] _ hnodup hpresent hpair
  have hup : upload exec files s =
      .responded .mismatch { dir := d', execs := s.execs ++ [bowtieBuildCmd genome] } := by
    rw [upload_of_genome exec files s genome hgenome, hbuilt, hd']
    rfl
  refine ⟨by rw [hup]; rfl, by rw [hup]; rfl, by rw [hd']; rfl, by rw [hup]; rfl, ?_⟩
  intro p hp1 hp2
  have := pairingLoop_other p hp2 files [] (exec (bowtieBuildCmd genome) s.dir).dir hp1
  rw [hd'] at this
  rw [hup]
  exact this

/-- Instance of the amended C2. -/
theorem mismatched_pair_rejected_witness :
    (upload buildOk [js "a_R1.fastq.gz", js "a_R2.fastq.gz", js "x.fa", js "y.fa"]
      { dir := diskStorage
          [(js "a_R1.fastq.gz", js "r1"), (js "a_R2.fastq.gz", js "r2"),
           (js "x.fa", js "ACGT"), (js "y.fa", js "ACGT")] emptyDir,
        execs := [] }).response = some Response.mismatch :=
  (mismatched_pair_rejected buildOk
    [js "a_R1.fastq.gz", js "a_R2.fastq.gz", js "x.fa", js "y.fa"]
    { dir := diskStorage
        [(js "a_R1.fastq.gz", js "r1"), (js "a_R2.fastq.gz", js "r2"),
         (js "x.fa", js "ACGT"), (js "y.fa", js "ACGT")] emptyDir,
      execs := [] }
    (js "x.fa") (by decide) rfl (by decide) (by decide)
    ⟨1, js "x.fa", js "y.fa", by decide, by decide, by decide⟩).1

/-- Claim C5 fails as stated: the request ends with the mismatched-pair error,
but `a_R1.fastq.gz`, present before, is gone and stored as `a_1.fastq.gz`, and
the index build command has been executed. -/
theorem rename_survives_mismatch :
    (upload buildOk [js "a_R1.fastq.gz", js "a_R2.fastq.gz", js "x.fa", js "y.fa"]
      { dir := diskStorage
          [(js "a_R1.fastq.gz", js "r1"), (js "a_R2.fastq.gz", js "r2"),
           (js "x.fa", js "ACGT"), (js "y.fa", js "ACGT")] emptyDir,
        execs := [] }).response = some Response.mismatch ∧
    diskStorage
      [(js "a_R1.fastq.gz", js "r1"), (js "a_R2.fastq.gz", js "r2"),
       (js "x.fa", js "ACGT"), (js "y.fa", js "ACGT")] emptyDir (js "a_R1.fastq.gz")
      = some (js "r1") ∧
    (upload buildOk [js "a_R1.fastq.gz", js "a_R2.fastq.gz", js "x.fa", js "y.fa"]
      { dir := diskStorage
          [(js "a_R1.fastq.gz", js "r1"), (js "a_R2.fastq.gz", js "r2"),
           (js "x.fa", js "ACGT"), (js "y.fa", js "ACGT")] emptyDir,
        execs := [] }).store.dir (js "a_R1.fastq.gz") = none ∧
    (upload buildOk [js "a_R1.fastq.gz", js "a_R2.fastq.gz", js "x.fa", js "y.fa"]
      { dir := diskStorage
          [(js "a_R1.fastq.gz", js "r1"), (js "a_R2.fastq.gz", js "r2"),
           (js "x.fa", js "ACGT"), (js "y.fa", js "ACGT")] emptyDir,
        execs := [] }).store.dir (js "a_1.fastq.gz") = some (js "r1") ∧
    (upload buildOk [js "a_R1.fastq.gz", js "a_R2.fastq.gz", js "x.fa", js "y.fa"]
      { dir := diskStorage
          [(js "a_R1.fastq.gz", js "r1"), (js "a_R2.fastq.gz", js "r2"),
           (js "x.fa", js "ACGT"), (js "y.fa", js "ACGT")] emptyDir,
        execs := [] }).store.execs = [js "bowtie2-build uploads/x.fa uploads/x"] := by
  refine ⟨by decide, by decide, by decide, by decide, by decide⟩

theorem renameSync_eq_moved (old new : JSString) (d d' : Dir)
    (h : renameSync old new d = some d') : d' = moved old new d := by
  unfold renameSync at h
  cases hd : d old with
  | none => simp [hd] at h
  | some c =>
    simp only [hd, Option.some.injEq] at h
    subst h
    funext p
    simp [moved, hd]

theorem pairingLoop_mismatch_dir :
    ∀ (files sampleFiles : List JSString) (d d' : Dir),
      pairingLoop files sampleFiles d = .mismatch d' → d' = movedPairs files d
  | [], _, _, _, h => by simp [pairingLoop] at h
  | [_], _, _, _, h => by simp [pairingLoop] at h
  | file1 :: file2 :: rest, sampleFiles, d, d', h => by
    unfold pairingLoop at h
    unfold movedPairs
    split_ifs at h ⊢ with c1 c2
    · exact pairingLoop_mismatch_dir rest _ d d' h
    · simp only [] at h
      cases h1 : renameSync file1 (replaceFirst (js "_R1.fastq.gz") file1 ++ js "_1.fastq.gz") d with
      | none => simp [h1] at h
      | some d1 =>
        rw [h1] at h
        simp only [] at h
        cases h2 : renameSync file2 (replaceFirst (js "_R1.fastq.gz") file1 ++ js "_2.fastq.gz") d1 with
        | none => simp [h2] at h
        | some d2 =>
          rw [h2] at h
          simp only [] at h
          rw [← renameSync_eq_moved _ _ _ _ h1, ← renameSync_eq_moved _ _ _ _ h2]
          exact pairingLoop_mismatch_dir rest _ d2 d' h
    · simp only [LoopResult.mismatch.injEq] at h
      exact h.symm

/-- Claim C5, amended: after a no-genome error the store equals the store
before the request. After a mismatched-pair error the only command executed is
the index build (no run is started), and the directory is the one the index
build left with the files of every `_R1`/`_R2` pair before the offending pair
moved to their `_1`/`_2` names; in particular every file outside the upload
list whose name does not end in `.fastq.gz` (the pipeline script, the progress
log) is as the index build left it. -/
theorem resolution_error_effects (exec : JSString → Dir → ExecResult) (files : List JSString)
    (s : Store) :
    ((upload exec files s).response = some Response.noGenome →
      (upload exec files s).store = s) ∧
    ((upload exec files s).response = some Response.mismatch →
      ∃ genome, genomeFile files = some genome ∧
        (upload exec files s).store.execs = s.execs ++ [bowtieBuildCmd genome] ∧
        (upload exec files s).store.dir
          = movedPairs files (exec (bowtieBuildCmd genome) s.dir).dir ∧
        ∀ p, p ∉ files → endsWith p (js ".fastq.gz") = false →
          (upload exec files s).store.dir p = (exec (bowtieBuildCmd genome) s.dir).dir p) := by
  constructor
  · intro h
    rw [upload_no_genome exec files s ((upload_response_noGenome_iff exec files s).mp h)]
    rfl
  · intro h
    cases hg : genomeFile files with
    | none =>
      rw [upload_no_genome exec files s hg] at h
      simp [Outcome.response] at h
    | some genome =>
      refine ⟨genome, rfl, ?_⟩
      rw [upload_of_genome exec files s genome hg] at h ⊢
      split_ifs at h ⊢ with he
      · simp [Outcome.response] at h
      · cases hl : pairingLoop files [] (exec (bowtieBuildCmd genome) s.dir).dir with
        | mismatch d =>
          refine ⟨rfl, pairingLoop_mismatch_dir files [] _ d hl, ?_⟩
          intro p hp1 hp2
          have := pairingLoop_other p hp2 files [] (exec (bowtieBuildCmd genome) s.dir).dir hp1
          rw [hl] at this
          exact this
        | done sampleFiles d => simp [hl, Outcome.response] at h
        | typeError d => simp [hl, Outcome.response] at h
        | renameError d => simp [hl, Outcome.response] at h

/-- The moved directory of the instance above, evaluated: the first file of the
pair is gone and both contents are found under the `_1`/`_2` names. -/
theorem movedPairs_example :
    movedPairs [js "a_R1.fastq.gz", js "a_R2.fastq.gz", js "x.fa", js "y.fa"]
        (diskStorage
          [(js "a_R1.fastq.gz", js "r1"), (js "a_R2.fastq.gz", js "r2"),
           (js "x.fa", js "ACGT"), (js "y.fa", js "ACGT")] emptyDir) (js "a_R1.fastq.gz")
      = none ∧
    movedPairs [js "a_R1.fastq.gz", js "a_R2.fastq.gz", js "x.fa", js "y.fa"]
        (diskStorage
          [(js "a_R1.fastq.gz", js "r1"), (js "a_R2.fastq.gz", js "r2"),
           (js "x.fa", js "ACGT"), (js "y.fa", js "ACGT")] emptyDir) (js "a_1.fastq.gz")
      = some (js "r1") ∧
    movedPairs [js "a_R1.fastq.gz", js "a_R2.fastq.gz", js "x.fa", js "y.fa"]
        (diskStorage
          [(js "a_R1.fastq.gz", js "r1"), (js "a_R2.fastq.gz", js "r2"),
           (js "x.fa", js "ACGT"), (js "y.fa", js "ACGT")] emptyDir) (js "a_2.fastq.gz")
      = some (js "r2") := by
  refine ⟨by decide, by decide, by decide⟩

/-- Instance of the amended C5: a request without genome leaves the store as it
was; a request that ends with the mismatch error after an `_R1`/`_R2` pair
leaves that pair moved: `a_R1.fastq.gz` is gone and the contents are found under
`a_1.fastq.gz` and `a_2.fastq.gz`, and only the index build was executed. -/
theorem resolution_error_effects_witness :
    (upload buildOk [js "s1_1.fastq.gz", js "s1_2.fastq.gz"] { dir := emptyDir, execs := [] }).store
      = { dir := emptyDir, execs := [] } ∧
    (upload buildOk [js "a_R1.fastq.gz", js "a_R2.fastq.gz", js "x.fa", js "y.fa"]
      { dir := diskStorage
          [(js "a_R1.fastq.gz", js "r1"), (js "a_R2.fastq.gz", js "r2"),
           (js "x.fa", js "ACGT"), (js "y.fa", js "ACGT")] emptyDir,
        execs := [] }).store.dir (js "a_R1.fastq.gz") = none ∧
    (upload buildOk [js "a_R1.fastq.gz", js "a_R2.fastq.gz", js "x.fa", js "y.fa"]
      { dir := diskStorage
          [(js "a_R1.fastq.gz", js "r1"), (js "a_R2.fastq.gz", js "r2"),
           (js "x.fa", js "ACGT"), (js "y.fa", js "ACGT")] emptyDir,
        execs := [] }).store.dir (js "a_1.fastq.gz") = some (js "r1") ∧
    (upload buildOk [js "a_R1.fastq.gz", js "a_R2.fastq.gz", js "x.fa", js "y.fa"]
      { dir := diskStorage
          [(js "a_R1.fastq.gz", js "r1"), (js "a_R2.fastq.gz", js "r2"),
           (js "x.fa", js "ACGT"), (js "y.fa", js "ACGT")] emptyDir,
        execs := [] }).store.dir (js "a_2.fastq.gz") = some (js "r2") := by
  refine ⟨(resolution_error_effects buildOk [js "s1_1.fastq.gz", js "s1_2.fastq.gz"]
      { dir := emptyDir, execs := [] }).1 (by decide), ?_⟩
  obtain ⟨genome, _, _, hdir, _⟩ := (resolution_error_effects buildOk
      [js "a_R1.fastq.gz", js "a_R2.fastq.gz", js "x.fa", js "y.fa"]
      { dir := diskStorage
          [(js "a_R1.fastq.gz", js "r1"), (js "a_R2.fastq.gz", js "r2"),
           (js "x.fa", js "ACGT"), (js "y.fa", js "ACGT")] emptyDir,
        execs := [] }).2 (by decide)
  rw [hdir]
  exact movedPairs_example

theorem genomeFile_first (pre : List JSString) (genome : JSString) (post : List JSString)
    (hpre : ∀ f ∈ pre, isGenomeFile f = false) (hgenome : isGenomeFile genome = true) :
    genomeFile (pre ++ genome :: post) = some genome := by
  unfold genomeFile
  induction pre with
  | nil => simp [hgenome]
  | cons f rest ih =>
    have hf : isGenomeFile f = false := hpre f (by simp)
    simp only [List.cons_append, List.find?_cons, hf]
    exact ih (fun g hg => hpre g (by simp [hg]))

theorem genomeFile_none (files : List JSString) (h : ∀ f ∈ files, isGenomeFile f = false) :
    genomeFile files = none := by
  unfold genomeFile
  rw [List.find?_eq_none]
  intro f hf
  simp [h f hf]

/-- Claim C4: without a file name ending in `.fasta` or `.fa` the handler
answers `Please upload a .fasta or .fa file.` and leaves the store untouched
(no command executed, no file renamed or written), whatever the index build
would do; with such a file the no-genome error is not produced, and the first
such file in upload order is the genome: the index build is executed on it and
the script of a launched run is generated from its path. -/
theorem genome_lookup (exec : JSString → Dir → ExecResult) (files : List JSString)
    (s : Store) :
    ((∀ f ∈ files, isGenomeFile f = false) →
      upload exec files s = .responded .noGenome s ∧
      (upload exec files s).response.map Response.body
        = some (js "Please upload a .fasta or .fa file.")) ∧
    (∀ pre genome post, files = pre ++ genome :: post →
      (∀ f ∈ pre, isGenomeFile f = false) → isGenomeFile genome = true →
      genomeFile files = some genome ∧
      (upload exec files s).response ≠ some Response.noGenome ∧
      (∃ later, (upload exec files s).store.execs = s.execs ++ bowtieBuildCmd genome :: later) ∧
      ((upload exec files s).response = some Response.started →
        ∃ sampleFiles, (upload exec files s).store.dir (js "pipeline.sh") =
          some (pipelineScriptContent sampleFiles (indexBasePath genome)
            (genomeFilePath genome)))) := by
  constructor
  · intro h
    rw [upload_no_genome exec files s (genomeFile_none files h)]
    exact ⟨rfl, rfl⟩
  · intro pre genome post hfiles hpre hgenome
    have hg : genomeFile files = some genome := by
      rw [hfiles]
      exact genomeFile_first pre genome post hpre hgenome
    refine ⟨hg, ?_, ?_, ?_⟩
    · intro h
      rw [(upload_response_noGenome_iff exec files s).mp h] at hg
      exact absurd hg (by simp)
    · rw [upload_of_genome exec files s genome hg]
      split_ifs with he
      · exact ⟨[], rfl⟩
      · cases hl : pairingLoop files [] (exec (bowtieBuildCmd genome) s.dir).dir with
        | mismatch d => exact ⟨[], rfl⟩
        | typeError d => exact ⟨[], rfl⟩
        | renameError d => exact ⟨[], rfl⟩
        | done sampleFiles d => exact ⟨[runScriptCmd], by simp [Outcome.store]⟩
    · rw [upload_of_genome exec files s genome hg]
      split_ifs with he
      · intro h
        simp [Outcome.response] at h
      · cases hl : pairingLoop files [] (exec (bowtieBuildCmd genome) s.dir).dir with
        | mismatch d => intro h; simp [Outcome.response] at h
        | typeError d => intro h; simp [Outcome.response] at h
        | renameError d => intro h; simp [Outcome.response] at h
        | done sampleFiles d =>
          intro _
          refine ⟨sampleFiles, ?_⟩
          have hne : js "pipeline.sh" ≠ js "progress.txt" := by decide
          simp [Outcome.store, writeFileSync, hne]

/-- Instance of C4. -/
theorem genome_lookup_witness :
    (upload buildOk [js "s1_1.fastq.gz", js "s1_2.fastq.gz"] { dir := emptyDir, execs := [] }
      = .responded .noGenome { dir := emptyDir, execs := [] }) ∧
    genomeFile [js "s1_1.fastq.gz", js "b.fa", js "a.fasta"] = some (js "b.fa") :=
  ⟨((genome_lookup buildOk [js "s1_1.fastq.gz", js "s1_2.fastq.gz"]
      { dir := emptyDir, execs := [] }).1 (by decide)).1,
   ((genome_lookup buildOk [js "s1_1.fastq.gz", js "b.fa", js "a.fasta"]
      { dir := emptyDir, execs := [] }).2 [js "s1_1.fastq.gz"] (js "b.fa") [js "a.fasta"] rfl
      (by decide) (by decide)).1⟩

/-! ## The steps of the script -/

theorem threaded_reads (steps : List Step) :
    ∀ (available : List JSString), Threaded available steps →
      ∀ pre st post, steps = pre ++ st :: post → ∀ r ∈ st.reads,
        r ∈ available ∨ ∃ p ∈ pre, r ∈ p.writes := by
  induction steps with
  | nil =>
    intro available _ pre st post h
    simp at h
  | cons first rest ih =>
    intro available hth pre st post h r hr
    obtain ⟨hfirst, hrest⟩ := hth
    cases pre with
    | nil =>
      simp only [List.nil_append, List.cons.injEq] at h
      obtain ⟨rfl, _⟩ := h
      exact Or.inl (hfirst r hr)
    | cons p pre' =>
      simp only [List.cons_append, List.cons.injEq] at h
      obtain ⟨rfl, h'⟩ := h
      rcases ih _ hrest pre' st post h' r hr with hav | ⟨q, hq, hrq⟩
      · rcases List.mem_append.mp hav with h1 | h2
        · exact Or.inl h1
        · exact Or.inr ⟨first, by simp, h2⟩
      · exact Or.inr ⟨q, by simp [hq], hrq⟩

theorem loopBody_threaded (GENOMEIDX1 GENOMEIDX sample_name : JSString) :
    Threaded
      [inBasedir [] sample_name (js "_1.fastq.gz"), inBasedir [] sample_name (js "_2.fastq.gz"),
        GENOMEIDX, GENOMEIDX1]
      (loopBody GENOMEIDX1 GENOMEIDX sample_name) := by
  have e : js "" = [] := rfl
  simp [Threaded, loopBody, e]

theorem loopBody_tools (GENOMEIDX1 GENOMEIDX sample_name : JSString) :
    (loopBody GENOMEIDX1 GENOMEIDX sample_name).map Step.tool = stageOrder := rfl

theorem flatMap_tools (GENOMEIDX1 GENOMEIDX : JSString) (samples : List JSString) :
    (samples.flatMap (loopBody GENOMEIDX1 GENOMEIDX)).map Step.tool
      = samples.flatMap (fun _ => stageOrder) := by
  induction samples with
  | nil => rfl
  | cons s rest ih =>
    simp only [List.flatMap_cons, List.map_append, loopBody_tools, ih]

/-! ## The shell run of the generated script -/
theorem lexFold_shift (pre : List Token) (cs : JSString) :
    ∀ (s : LexState) (toks : List Token),
      lexFold s (pre ++ toks) cs = ((lexFold s toks cs).1, pre ++ (lexFold s toks cs).2) := by
  induction cs with
  | nil => intro s toks; rfl
  | cons c cs ih =>
    intro s toks
    simp only [lexFold]
    rw [List.append_assoc, ih]

theorem lexFold_append (a b : JSString) :
    ∀ (s : LexState) (toks : List Token),
      lexFold s toks (a ++ b) = lexFold (lexFold s toks a).1 (lexFold s toks a).2 b := by
  induction a with
  | nil => intro s toks; rfl
  | cons c cs ih =>
    intro s toks
    simp only [List.cons_append, lexFold]
    exact ih _ _

theorem parseFold_shift (pre : List Item) (ts : List Token) :
    ∀ (p : ParseState) (items : List Item),
      parseFold p (pre ++ items) ts
        = ((parseFold p items ts).1, pre ++ (parseFold p items ts).2) := by
  induction ts with
  | nil => intro p items; rfl
  | cons t ts ih =>
    intro p items
    simp only [parseFold]
    rw [List.append_assoc, ih]

theorem parseFold_append (a b : List Token) :
    ∀ (p : ParseState) (items : List Item),
      parseFold p items (a ++ b) = parseFold (parseFold p items a).1 (parseFold p items a).2 b := by
  induction a with
  | nil => intro p items; rfl
  | cons t ts ih =>
    intro p items
    simp only [List.cons_append, parseFold]
    exact ih _ _

theorem lines_clean : (scriptLoop.tail.all lineClean) = true := by decide!

theorem lines_items :
    scriptLoop.tail.flatMap lineItems =
      introItems ++ forItem :: keywordItem "do" :: bodyItems ++ keywordItem "done" :: outroItems := by
  decide!


theorem js_append (a b : String) : js (a ++ b) = js a ++ js b := by
  simp [js, String.toList, String.data_append, List.flatMap_append]

theorem js_foldl (ls : List String) :
    ∀ acc : String, js (ls.foldl (fun r s => r ++ s) acc) = js acc ++ ls.flatMap js := by
  induction ls with
  | nil => intro acc; simp
  | cons l rest ih =>
    intro acc
    simp only [List.foldl_cons, List.flatMap_cons]
    rw [ih, js_append, List.append_assoc]

theorem js_join (ls : List String) : js (String.join ls) = ls.flatMap js := by
  unfold String.join
  rw [js_foldl]
  rfl

theorem lexFold_from (s : LexState) (toks : List Token) (cs : JSString)
    (r : LexState × List Token) (h : lexFold s [] cs = r) :
    lexFold s toks cs = (r.1, toks ++ r.2) := by
  have := lexFold_shift toks cs s []
  rw [List.append_nil] at this
  rw [this, h]

theorem parseFold_from (p : ParseState) (items : List Item) (ts : List Token)
    (r : ParseState × List Item) (h : parseFold p [] ts = r) :
    parseFold p items ts = (r.1, items ++ r.2) := by
  have := parseFold_shift items ts p []
  rw [List.append_nil] at this
  rw [this, h]

theorem lexFold_lines (lines : List String) (h : lines.all lineClean = true) :
    ∀ toks : List Token,
      lexFold ⟨.normal, none⟩ toks (lines.flatMap js) =
        (⟨.normal, none⟩,
          toks ++ lines.flatMap fun line => (lexFold ⟨.normal, none⟩ [] (js line)).2) := by
  induction lines with
  | nil => intro toks; simp [lexFold]
  | cons line rest ih =>
    intro toks
    simp only [List.all_cons, Bool.and_eq_true] at h
    obtain ⟨hline, hrest⟩ := h
    simp only [lineClean, Bool.and_eq_true, decide_eq_true_eq] at hline
    simp only [List.flatMap_cons]
    rw [lexFold_append, lexFold_from _ toks (js line) _ rfl, hline.1]
    simp only []
    rw [ih hrest, List.append_assoc]

theorem parseFold_lines (lines : List String) (h : lines.all lineClean = true) :
    ∀ items : List Item,
      parseFold ParseState.init items
          (lines.flatMap fun line => (lexFold ⟨.normal, none⟩ [] (js line)).2) =
        (ParseState.init, items ++ lines.flatMap lineItems) := by
  induction lines with
  | nil => intro items; simp [parseFold]
  | cons line rest ih =>
    intro items
    simp only [List.all_cons, Bool.and_eq_true] at h
    obtain ⟨hline, hrest⟩ := h
    simp only [lineClean, Bool.and_eq_true, decide_eq_true_eq] at hline
    simp only [List.flatMap_cons]
    rw [parseFold_append, parseFold_from _ items _ _ rfl, hline.2]
    simp only []
    rw [ih hrest, List.append_assoc]
    rfl

theorem lexFold_quoted (s : JSString) (h : QuoteSafe s) :
    ∀ (t : JSString) (toks : List Token),
      lexFold ⟨.double, some [.text t true]⟩ toks s
        = (⟨.double, some [.text (t ++ s) true]⟩, toks) := by
  induction s with
  | nil => intro t toks; simp [lexFold]
  | cons c cs ih =>
    intro t toks
    have hc : isDoubleQuoteSpecial c = false := h c (by simp)
    simp only [isDoubleQuoteSpecial, Bool.or_eq_false_iff, decide_eq_false_iff_not] at hc
    obtain ⟨⟨⟨h1, h2⟩, h3⟩, h4⟩ := hc
    have hstep : lexStep ⟨.double, some [.text t true]⟩ c
        = (⟨.double, some [.text (t ++ [c]) true]⟩, []) := by
      simp [lexStep, lexDouble, h1, h2, h3, h4, growText, addText]
    simp only [lexFold, hstep, List.append_nil]
    rw [ih (fun x hx => h x (by simp [hx]))]
    simp

theorem lexFold_bare (s : JSString) (h : BareSafe s) :
    ∀ (t : JSString) (toks : List Token),
      lexFold ⟨.normal, some [.text t false]⟩ toks s
        = (⟨.normal, some [.text (t ++ s) false]⟩, toks) := by
  induction s with
  | nil => intro t toks; simp [lexFold]
  | cons c cs ih =>
    intro t toks
    have hc : isBareSpecial c = false := h c (by simp)
    simp only [isBareSpecial, Bool.or_eq_false_iff, decide_eq_false_iff_not] at hc
    obtain ⟨⟨⟨⟨⟨⟨⟨⟨⟨⟨⟨⟨h1, h2⟩, h3⟩, h4⟩, h5⟩, h6⟩, h7⟩, h8⟩, h9⟩, h10⟩, h11⟩, h12⟩, h13⟩ := hc
    have hstep : lexStep ⟨.normal, some [.text t false]⟩ c
        = (⟨.normal, some [.text (t ++ [c]) false]⟩, []) := by
      simp [lexStep, lexNormal, h1, h2, h3, h4, h5, h6, h7, h8, h9, h10, h11, h12, h13,
        growText, addText]
    simp only [lexFold, hstep, List.append_nil]
    rw [ih (fun x hx => h x (by simp [hx]))]
    simp

theorem lexFold_newline (w : Word) (toks : List Token) (rest : JSString) :
    lexFold ⟨.normal, some w⟩ toks (0x0A :: rest)
      = lexFold ⟨.normal, none⟩ (toks ++ [.word w, .newline]) rest := by
  simp [lexFold, lexStep, lexNormal, closeWord]

theorem lexFold_element (s : JSString) (h : QuoteSafe s) (toks : List Token) :
    lexFold ⟨.normal, none⟩ toks (js "    \"" ++ s ++ js "\"")
      = (⟨.normal, some [.text s true]⟩, toks) := by
  have h0 : lexFold ⟨.normal, none⟩ [] (js "    \"") = (⟨.double, some [.text [] true]⟩, []) := by
    decide
  have h1 : js "\"" = [0x22] := by decide
  rw [lexFold_append, lexFold_append, lexFold_from _ toks _ _ h0]
  simp only [List.append_nil]
  rw [lexFold_quoted s h, h1]
  simp [lexFold, lexStep, lexDouble]

theorem lexFold_samples :
    ∀ (samples : List JSString) (toks : List Token), (∀ s ∈ samples, QuoteSafe s) →
      lexFold ⟨.normal, none⟩ toks (samplesList samples ++ [0x0A]) =
        (⟨.normal, none⟩,
          toks ++ samples.map (fun s => Token.word [.text s true]) ++ [.newline])
  | [], toks, _ => by
    simp [samplesList, join, lexFold, lexStep, lexNormal, closeWord]
  | [s], toks, h => by
    have hs : QuoteSafe s := h s (by simp)
    simp only [samplesList, List.map_cons, List.map_nil, join]
    rw [lexFold_append, lexFold_element s hs]
    simp [lexFold, lexStep, lexNormal, closeWord]
  | s :: s2 :: rest, toks, h => by
    have hs : QuoteSafe s := h s (by simp)
    have hsep : js " \\\n" = [0x20, 0x5C, 0x0A] := by decide
    have ih := lexFold_samples (s2 :: rest) (toks ++ [.word [.text s true]])
      (fun x hx => h x (by simp [hx]))
    simp only [samplesList, List.map_cons, join] at ih ⊢
    rw [List.append_assoc, List.append_assoc, lexFold_append, lexFold_element s hs, hsep]
    simp only [List.cons_append, List.nil_append, lexFold, lexStep, lexNormal, closeWord]
    simp only [Nat.reduceEqDiff, decide_True, decide_False, Bool.or_self, Bool.or_false,
      Bool.false_eq_true, if_false, if_true, Bool.true_or, Bool.or_true, List.append_nil]
    rw [hsep] at ih
    show lexFold _ _ (join _ _ ++ [10]) = _
    rw [ih]
    simp

theorem script_split (samples : List JSString) (i g : JSString) :
    pipelineScriptContent samples i g =
      (js (String.join scriptHead) ++ ((samplesList samples ++ [0x0A]) ++
        (js "        )\n        GENOMEIDX1=" ++ (i ++ (0x0A :: (js "        GENOMEIDX=" ++
          (g ++ [0x0A]))))))) ++ scriptLoop.tail.flatMap js := by
  have hA : js (String.join scriptAfterSamples) = [0x0A] ++ js "        )\n        GENOMEIDX1=" := by
    decide!
  have hB : js (String.join scriptAfterIndex) = 0x0A :: js "        GENOMEIDX=" := by decide!
  have hL : js (String.join scriptLoop) = 0x0A :: scriptLoop.tail.flatMap js := by
    have hcons : scriptLoop = "\n" :: scriptLoop.tail := rfl
    have hnl : js "\n" = [0x0A] := by decide
    rw [js_join]
    conv_lhs => rw [hcons]
    rw [List.flatMap_cons, hnl]
    rfl
  unfold pipelineScriptContent
  rw [hA, hB, hL]
  simp [List.append_assoc]

theorem lex_of_fold (text : JSString) (toks : List Token)
    (h : lexFold ⟨.normal, none⟩ [] text = (⟨.normal, none⟩, toks)) : lex text = some toks := by
  unfold lex
  rw [h]
  simp [closeWord]

theorem parse_of_fold (ts : List Token) (items : List Item)
    (h : parseFold ParseState.init [] ts = (ParseState.init, items)) :
    parse ts = some items := by
  unfold parse
  rw [h]
  simp [endLine, ParseState.init, Command.empty]

theorem read_script (head : JSString) (toks : List Token) (items : List Item)
    (h1 : lexFold ⟨.normal, none⟩ [] head = (⟨.normal, none⟩, toks))
    (h2 : parseFold ParseState.init [] toks = (ParseState.init, items)) :
    (lex (head ++ scriptLoop.tail.flatMap js)).bind parse =
      some (items ++
        (introItems ++ forItem :: keywordItem "do" :: bodyItems ++
          keywordItem "done" :: outroItems)) := by
  have hl : lexFold ⟨.normal, none⟩ [] (head ++ scriptLoop.tail.flatMap js) =
      (⟨.normal, none⟩,
        toks ++ scriptLoop.tail.flatMap fun line => (lexFold ⟨.normal, none⟩ [] (js line)).2) := by
    rw [lexFold_append, h1]
    exact lexFold_lines _ lines_clean toks
  have hp : parseFold ParseState.init []
      (toks ++ scriptLoop.tail.flatMap fun line => (lexFold ⟨.normal, none⟩ [] (js line)).2) =
      (ParseState.init, items ++ scriptLoop.tail.flatMap lineItems) := by
    rw [parseFold_append, h2]
    exact parseFold_lines _ lines_clean items
  rw [lex_of_fold _ _ hl, Option.some_bind, parse_of_fold _ _ hp, lines_items]

theorem lex_head (SL : JSString) (ws : List Word) (i g : JSString)
    (hS : lexFold ⟨.normal, none⟩ headTokens (SL ++ [0x0A])
      = (⟨.normal, none⟩, headTokens ++ ws.map Token.word ++ [.newline]))
    (hi : BareSafe i) (hg : BareSafe g) :
    lexFold ⟨.normal, none⟩ []
        (js (String.join scriptHead) ++ ((SL ++ [0x0A]) ++
          (js "        )\n        GENOMEIDX1=" ++ (i ++ (0x0A :: (js "        GENOMEIDX=" ++
            (g ++ [0x0A]))))))) =
      (⟨.normal, none⟩, headTokens ++ ws.map Token.word ++
        [.newline, .arrayClose, .newline, .word [.text (js "GENOMEIDX1=" ++ i) false],
          .newline, .word [.text (js "GENOMEIDX=" ++ g) false], .newline]) := by
  have h0 : lexFold ⟨.normal, none⟩ [] (js (String.join scriptHead))
      = (⟨.normal, none⟩, headTokens) := by decide!
  have hA' : lexFold ⟨.normal, none⟩ [] (js "        )\n        GENOMEIDX1=")
      = (⟨.normal, some [.text (js "GENOMEIDX1=") false]⟩, [.arrayClose, .newline]) := by decide!
  have hB' : lexFold ⟨.normal, none⟩ [] (js "        GENOMEIDX=")
      = (⟨.normal, some [.text (js "GENOMEIDX=") false]⟩, []) := by decide!
  rw [lexFold_append, h0]
  simp only []
  rw [lexFold_append, hS]
  simp only []
  rw [lexFold_append, lexFold_from _ _ _ _ hA']
  simp only []
  rw [lexFold_append, lexFold_bare i hi, lexFold_newline]
  rw [lexFold_append, lexFold_from _ _ _ _ hB']
  simp only []
  rw [lexFold_append, lexFold_bare g hg, lexFold_newline]
  simp [lexFold, List.append_assoc]

theorem parseFold_elems (name : Word) (ws : List Word) :
    ∀ (elems : List Word) (items : List Item),
      parseFold ⟨Command.empty, none, [], some (name, elems), true⟩ items (ws.map Token.word)
        = (⟨Command.empty, none, [], some (name, elems ++ ws), true⟩, items) := by
  induction ws with
  | nil => intro elems items; simp [parseFold]
  | cons w rest ih =>
    intro elems items
    simp only [List.map_cons, parseFold, parseStep]
    simp only [Bool.not_true, Bool.false_eq_true, if_false, List.append_nil]
    rw [ih]
    simp

theorem parse_head (ws : List Word) (i g : JSString) :
    parseFold ParseState.init [] (headTokens ++ ws.map Token.word ++
        [.newline, .arrayClose, .newline, .word [.text (js "GENOMEIDX1=" ++ i) false],
          .newline, .word [.text (js "GENOMEIDX=" ++ g) false], .newline]) =
      (ParseState.init, headItems ws i g) := by
  have h0 : parseFold ParseState.init [] headTokens
      = (⟨Command.empty, none, [], some ([u "samples="], []), true⟩,
          [.pipeline [⟨[[u "set"], [u "-e"]], []⟩],
           .pipeline [⟨[[u "basedir=", q "uploads"]], []⟩]]) := by decide!
  rw [List.append_assoc, parseFold_append, h0]
  simp only []
  rw [parseFold_append, parseFold_elems]
  simp [parseFold, parseStep, endLine, Command.empty, ParseState.init, headItems]

theorem addElems_none :
    ∀ (l done : List JSString), (addElems (done, none) l).flush.1 = done ++ l
  | [], done => by simp [addElems, Fields.flush]
  | [x], done => by simp [addElems, Fields.add, Fields.flush]
  | x :: y :: rest, done => by
    have ih := addElems_none (y :: rest) (done ++ [x])
    simp only [addElems, Fields.add, Fields.flush, Option.getD_none, List.nil_append] at ih ⊢
    rw [ih]
    simp

theorem expand_samples (e : Env) :
    expand e [q "", .elems (js "samples")] = e.getArray (js "samples") := by
  have h0 : expand e [q "", .elems (js "samples")]
      = (addElems ([], some []) (e.getArray (js "samples"))).flush.1 := rfl
  rw [h0]
  cases e.getArray (js "samples") with
  | nil => simp [addElems, Fields.flush]
  | cons x rest =>
    cases rest with
    | nil => simp [addElems, Fields.add, Fields.flush]
    | cons y rest2 =>
      have := addElems_none (y :: rest2) [x]
      simp only [addElems, Fields.add, Fields.flush, Option.getD_some, List.nil_append] at this ⊢
      rw [this]
      simp

theorem arrayValues_quoted (samples : List JSString) :
    arrayValues (samples.map fun s => [Seg.text s true]) = samples := by
  unfold arrayValues
  induction samples with
  | nil => rfl
  | cons s rest ih =>
    simp only [List.map_cons, List.flatMap_cons, ih]
    simp [expand, expandSeg, Fields.add, Fields.flush]

theorem runItems_body_first (i g : JSString) (arr : List JSString) (s : JSString) :
    runItems ((loopEnv i g arr).set (js "sample_name") s) bodyItems =
      some (bodyEnv i g arr s (js "uploads" ++ js "/coverage_" ++ s ++ js ".txt")
        (js "uploads" ++ js "/" ++ s ++ js ".bed"), bodyExecs i g s) := by
  rfl

theorem runItems_body_next (i g : JSString) (arr : List JSString) (a b c s : JSString) :
    runItems ((bodyEnv i g arr a b c).set (js "sample_name") s) bodyItems =
      some (bodyEnv i g arr s (js "uploads" ++ js "/coverage_" ++ s ++ js ".txt")
        (js "uploads" ++ js "/" ++ s ++ js ".bed"), bodyExecs i g s) := by
  rfl

theorem stepsOf_body (i g s : JSString) :
    stepsOf (bodyExecs i g s) = some (loopBody i g s) := by
  rfl

theorem runLoop_body (i g : JSString) (arr : List JSString) :
    ∀ (vals : List JSString) (e : Env), LoopVars i g arr e →
      ∃ e', LoopVars i g arr e' ∧
        runLoop (js "sample_name") bodyItems e vals = some (e', vals.flatMap (bodyExecs i g)) := by
  intro vals
  induction vals with
  | nil => intro e he; exact ⟨e, he, rfl⟩
  | cons s rest ih =>
    intro e he
    have hstep : runItems (e.set (js "sample_name") s) bodyItems =
        some (bodyEnv i g arr s (js "uploads" ++ js "/coverage_" ++ s ++ js ".txt")
          (js "uploads" ++ js "/" ++ s ++ js ".bed"), bodyExecs i g s) := by
      rcases he with rfl | ⟨a, b, c, rfl⟩
      · exact runItems_body_first i g arr s
      · exact runItems_body_next i g arr a b c s
    obtain ⟨e', he', hrun⟩ := ih
      (bodyEnv i g arr s (js "uploads" ++ js "/coverage_" ++ s ++ js ".txt")
        (js "uploads" ++ js "/" ++ s ++ js ".bed")) (Or.inr ⟨s, _, _, rfl⟩)
    refine ⟨e', he', ?_⟩
    simp only [runLoop, hstep, hrun, List.flatMap_cons]

theorem shell_intro (ws : List Word) (i g : JSString) :
    (headItems ws i g ++ introItems).foldl shellStep
        { env := { vars := [], arrays := [] }, loop := .outside, ran := [], ok := true } =
      { env := loopEnv i g (arrayValues ws), loop := .outside, ran := introExecs, ok := true } := by
  rfl

theorem shell_collect (e : Env) (v : JSString) (vals : List JSString)
    (ran : List (List Exec)) (items : List Item) :
    ∀ body : List Item,
      (items.all fun item =>
        decide (item ≠ keywordItem "done") && !(startsWith "for" item) &&
          !(startsWith "do" item) && !(startsWith "done" item)) = true →
      items.foldl shellStep (Shell.mk e (.inside v vals body) ran true)
        = Shell.mk e (.inside v vals (body ++ items)) ran true := by
  induction items with
  | nil => intro body _; simp
  | cons item rest ih =>
    intro body h
    simp only [List.all_cons, Bool.and_eq_true, decide_eq_true_eq, Bool.not_eq_true',
      ne_eq] at h
    obtain ⟨⟨⟨⟨h1, h2⟩, h3⟩, h4⟩, hrest⟩ := h
    have hstep : shellStep (Shell.mk e (.inside v vals body) ran true) item
        = Shell.mk e (.inside v vals (body ++ [item])) ran true := by
      simp [shellStep, h1, h2, h3, h4]
    rw [List.foldl_cons, hstep, ih _ hrest]
    simp

theorem bodyItems_plain :
    (bodyItems.all fun item =>
      decide (item ≠ keywordItem "done") && !(startsWith "for" item) &&
        !(startsWith "do" item) && !(startsWith "done" item)) = true := by
  decide!

theorem shell_loop_read (e : Env) (ran : List (List Exec)) :
    (forItem :: keywordItem "do" :: bodyItems).foldl shellStep (Shell.mk e .outside ran true) =
      Shell.mk e
        (.inside (js "sample_name") ([[q "", Seg.elems (js "samples")]].flatMap (expand e))
          bodyItems) ran true := by
  have h1 : shellStep (Shell.mk e .outside ran true) forItem
      = Shell.mk e (.header (js "sample_name")
          ([[q "", Seg.elems (js "samples")]].flatMap (expand e))) ran true := rfl
  have h2 : ∀ vals, shellStep (Shell.mk e (.header (js "sample_name") vals) ran true)
      (keywordItem "do") = Shell.mk e (.inside (js "sample_name") vals []) ran true :=
    fun _ => rfl
  rw [List.foldl_cons, h1, List.foldl_cons, h2, shell_collect _ _ _ _ _ _ bodyItems_plain]
  rfl

theorem shell_done (e e1 : Env) (vals : List JSString) (ran r : List (List Exec))
    (h : runLoop (js "sample_name") bodyItems e vals = some (e1, r)) :
    shellStep (Shell.mk e (.inside (js "sample_name") vals bodyItems) ran true)
        (keywordItem "done") =
      Shell.mk e1 .outside (ran ++ r) true := by
  simp [shellStep, h]

theorem shell_outro (i g : JSString) (arr : List JSString) (e : Env) (he : LoopVars i g arr e)
    (ran : List (List Exec)) :
    ∃ e', outroItems.foldl shellStep { env := e, loop := .outside, ran := ran, ok := true } =
      { env := e', loop := .outside,
        ran := ran ++ [[⟨[js "echo", js "Step 1.3: MultiQC Quality Control"],
            [(1, true, js "uploads/progress.txt")]⟩]] ++
          [[⟨[js "multiqc", js "uploads/fastqc_output/", js "uploads/", js "-o",
            js "uploads/multiqc_output/"], []⟩]],
        ok := true } := by
  rcases he with rfl | ⟨a, b, c, rfl⟩
  · exact ⟨_, rfl⟩
  · exact ⟨_, rfl⟩

theorem run_script (ws : List Word) (i g : JSString) :
    run (headItems ws i g ++
        (introItems ++ forItem :: keywordItem "do" :: bodyItems ++
          keywordItem "done" :: outroItems)) =
      some (introExecs ++ (arrayValues ws).flatMap (bodyExecs i g) ++ outroExecs) := by
  have hvals : [[q "", Seg.elems (js "samples")]].flatMap
      (expand (loopEnv i g (arrayValues ws))) = arrayValues ws := by
    simp only [List.flatMap_cons, List.flatMap_nil, List.append_nil, expand_samples]
    rfl
  obtain ⟨e1, he1, hloop⟩ := runLoop_body i g (arrayValues ws) (arrayValues ws)
    (loopEnv i g (arrayValues ws)) (Or.inl rfl)
  obtain ⟨e2, hout⟩ := shell_outro i g (arrayValues ws) e1 he1
    (introExecs ++ (arrayValues ws).flatMap (bodyExecs i g))
  have key : (headItems ws i g ++
        (introItems ++ forItem :: keywordItem "do" :: bodyItems ++
          keywordItem "done" :: outroItems)).foldl shellStep
        { env := { vars := [], arrays := [] }, loop := .outside, ran := [], ok := true } =
      { env := e2, loop := .outside,
        ran := introExecs ++ (arrayValues ws).flatMap (bodyExecs i g) ++ outroExecs,
        ok := true } := by
    have e : headItems ws i g ++
        (introItems ++ forItem :: keywordItem "do" :: bodyItems ++
          keywordItem "done" :: outroItems)
        = (headItems ws i g ++ introItems) ++
          ((forItem :: keywordItem "do" :: bodyItems) ++ (keywordItem "done" :: outroItems)) := by
      simp [List.append_assoc]
    rw [e, List.foldl_append, shell_intro, List.foldl_append, shell_loop_read, hvals,
      List.foldl_cons, shell_done _ _ _ _ _ hloop, hout]
    simp [outroExecs, List.append_assoc]
  unfold run
  rw [key]
  simp

theorem stepsOf_append (a b : List (List Exec)) (x y : List Step)
    (ha : stepsOf a = some x) (hb : stepsOf b = some y) : stepsOf (a ++ b) = some (x ++ y) := by
  induction a generalizing x with
  | nil =>
    simp only [stepsOf, Option.some.injEq] at ha
    subst ha
    simpa using hb
  | cons p ps ih =>
    simp only [List.cons_append, stepsOf] at ha ⊢
    cases hc : classify p with
    | none => simp [hc] at ha
    | some st =>
      cases hps : stepsOf ps with
      | none => cases st <;> simp [hc, hps] at ha
      | some r =>
        rw [show ps.append b = ps ++ b from rfl, ih r hps]
        cases st with
        | none =>
          simp only [hc, hps, Option.some.injEq] at ha
          subst ha
          rfl
        | some st' =>
          simp only [hc, hps, Option.some.injEq] at ha
          subst ha
          rfl

theorem stepsOf_flatMap (i g : JSString) (samples : List JSString) :
    stepsOf (samples.flatMap (bodyExecs i g)) = some (samples.flatMap (loopBody i g)) := by
  induction samples with
  | nil => rfl
  | cons s rest ih =>
    simp only [List.flatMap_cons]
    exact stepsOf_append _ _ _ _ (stepsOf_body i g s) ih

theorem shellSteps_script (samples : List JSString) (ws : List Word) (i g : JSString)
    (hS : lexFold ⟨.normal, none⟩ headTokens (samplesList samples ++ [0x0A])
      = (⟨.normal, none⟩, headTokens ++ ws.map Token.word ++ [.newline]))
    (hi : BareSafe i) (hg : BareSafe g) :
    shellSteps (pipelineScriptContent samples i g) = some (scriptSteps i g (arrayValues ws)) := by
  have h1 : stepsOf introExecs = some [] := by decide!
  have h2 : stepsOf outroExecs = some [finalStep] := by decide!
  unfold shellSteps
  rw [script_split, read_script _ _ _ (lex_head _ ws i g hS hi hg) (parse_head ws i g),
    Option.some_bind, run_script, Option.some_bind]
  have := stepsOf_append _ _ _ _
    (stepsOf_append _ _ _ _ h1 (stepsOf_flatMap i g (arrayValues ws))) h2
  rw [this]
  rfl

theorem shellSteps_safe (samples : List JSString) (i g : JSString)
    (hi : BareSafe i) (hg : BareSafe g) (hs : ∀ s ∈ samples, QuoteSafe s) :
    shellSteps (pipelineScriptContent samples i g) = some (scriptSteps i g samples) := by
  have := shellSteps_script samples (samples.map fun s => [Seg.text s true]) i g
    (by
      have h := lexFold_samples samples headTokens hs
      simpa [List.map_map, Function.comp] using h) hi hg
  rw [this, arrayValues_quoted]

theorem shellSteps_dollar :
    shellSteps (pipelineScriptContent [js "s$x"] (js "uploads/ref") (js "uploads/ref.fasta"))
      = some (scriptSteps (js "uploads/ref") (js "uploads/ref.fasta") [js "s"]) := by
  have := shellSteps_script [js "s$x"] [[.text (js "s") true, .var (js "x") true]]
    (js "uploads/ref") (js "uploads/ref.fasta") (by decide!) (by decide!) (by decide!)
  rw [this]
  have : arrayValues [[.text (js "s") true, .var (js "x") true]] = [js "s"] := by decide!
  rw [this]

theorem shellSteps_space :
    shellSteps (pipelineScriptContent [js "s1"] (js "uploads/my ref") (js "uploads/my ref.fasta"))
      = none := by
  have h1 : lexFold ⟨.normal, none⟩ []
      (js (String.join scriptHead) ++ ((samplesList [js "s1"] ++ [0x0A]) ++
        (js "        )\n        GENOMEIDX1=" ++ (js "uploads/my ref" ++ (0x0A ::
          (js "        GENOMEIDX=" ++ (js "uploads/my ref.fasta" ++ [0x0A])))))))
      = (⟨.normal, none⟩, spaceTokens) := by decide!
  have h2 : parseFold ParseState.init [] spaceTokens = (ParseState.init, spaceItems) := by
    decide!
  unfold shellSteps
  rw [script_split, read_script _ _ _ h1 h2, Option.some_bind]
  decide!

theorem loopBody_length (i g : JSString) (samples : List JSString) :
    (samples.flatMap (loopBody i g)).length = 13 * samples.length := by
  induction samples with
  | nil => rfl
  | cons s rest ih =>
    simp only [List.flatMap_cons, List.length_append, List.length_cons, ih]
    have : (loopBody i g s).length = 13 := rfl
    omega

theorem inBasedir_read (sample : JSString) (tail : String) :
    inBasedir [] sample (js tail) = js "uploads/" ++ sample ++ js tail := by
  have : js "uploads" ++ js "/" = js "uploads/" := by decide
  simp [inBasedir, ← this]

/-- Claim C8 fails as stated. For the sample `s$x` the shell expands `$x`
inside the double quotes of the array element: the script runs the steps of a
sample `s`, and its first step reads `uploads/s_1.fastq.gz`, which is neither
a read file of the sample `s$x`, nor the genome, nor the index. For a genome
file named `my ref.fasta` the unquoted assignment ends at the blank and the
script does not run as a sequence of tool steps. -/
theorem interpolated_name_rewritten :
    shellSteps (pipelineScriptContent [js "s$x"] (js "uploads/ref") (js "uploads/ref.fasta"))
      = some (scriptSteps (js "uploads/ref") (js "uploads/ref.fasta") [js "s"]) ∧
    (scriptSteps (js "uploads/ref") (js "uploads/ref.fasta") [js "s"]).head?.map Step.reads
      = some [js "uploads/s_1.fastq.gz", js "uploads/s_2.fastq.gz"] ∧
    js "uploads/s_1.fastq.gz" ∉
      [js "uploads/s$x_1.fastq.gz", js "uploads/s$x_2.fastq.gz", js "uploads/ref.fasta",
        js "uploads/ref"] ∧
    shellSteps (pipelineScriptContent [js "s1"] (js "uploads/my ref") (js "uploads/my ref.fasta"))
      = none :=
  ⟨shellSteps_dollar, by decide, by decide, shellSteps_space⟩

/-- Claim C8, amended: when the two genome paths hold no character that is
special in an unquoted shell word and no sample name holds a double quote, a
backslash, a dollar sign or a backquote, the shell runs the generated script
as follows: for each sample in list order the thirteen tools of `stageOrder`
(low-coverage detection with bound 5), then MultiQC once at the end; and in
the group of a sample every path a step reads is one of the two read files of
the sample, the genome, the index, or a path written by an earlier step of the
same group. -/
theorem script_step_order_and_threading (GENOMEIDX1 GENOMEIDX : JSString)
    (samples : List JSString) (hidx : BareSafe GENOMEIDX1) (hgenome : BareSafe GENOMEIDX)
    (hsamples : ∀ s ∈ samples, QuoteSafe s) :
    ∃ steps, shellSteps (pipelineScriptContent samples GENOMEIDX1 GENOMEIDX) = some steps ∧
      steps.map Step.tool = samples.flatMap (fun _ => stageOrder) ++ [Tool.multiqc] ∧
      stageOrder.length = 13 ∧ Tool.samtoolsDepthBelow 5 ∈ stageOrder ∧
      Tool.multiqc ∉ stageOrder ∧
      ∀ before sample after, samples = before ++ sample :: after →
        ∃ earlier group later, steps = earlier ++ group ++ later ∧
          earlier.length = 13 * before.length ∧ group.map Step.tool = stageOrder ∧
          ∀ pre st post, group = pre ++ st :: post → ∀ r ∈ st.reads,
            r ∈ [js "uploads/" ++ sample ++ js "_1.fastq.gz",
                  js "uploads/" ++ sample ++ js "_2.fastq.gz", GENOMEIDX, GENOMEIDX1] ∨
            ∃ p ∈ pre, r ∈ p.writes := by
  refine ⟨scriptSteps GENOMEIDX1 GENOMEIDX samples,
    shellSteps_safe samples GENOMEIDX1 GENOMEIDX hidx hgenome hsamples, ?_, rfl, by decide,
    by decide, ?_⟩
  · unfold scriptSteps
    rw [List.map_append, flatMap_tools]
    rfl
  · intro before sample after h
    refine ⟨before.flatMap (loopBody GENOMEIDX1 GENOMEIDX), loopBody GENOMEIDX1 GENOMEIDX sample,
      after.flatMap (loopBody GENOMEIDX1 GENOMEIDX) ++ [finalStep], ?_,
      loopBody_length _ _ _, rfl, ?_⟩
    · subst h
      simp [scriptSteps, List.flatMap_append, List.flatMap_cons]
    · have := threaded_reads _ _ (loopBody_threaded GENOMEIDX1 GENOMEIDX sample)
      rw [inBasedir_read, inBasedir_read] at this
      exact this

/-- Instance of the amended C8: for the samples `s1` and `s2` the shell runs
the thirteen tools twice and then MultiQC, and the second group, after the
thirteen steps of `s1`, reads only the files of `s2`, the genome, the index and
what its own earlier steps wrote. -/
theorem script_step_order_and_threading_witness :
    ∃ steps,
      shellSteps (pipelineScriptContent [js "s1", js "s2"] (js "uploads/ref")
        (js "uploads/ref.fasta")) = some steps ∧
      steps.map Step.tool = stageOrder ++ (stageOrder ++ [Tool.multiqc]) ∧
      ∃ earlier group later, steps = earlier ++ group ++ later ∧
        earlier.length = 13 ∧ group.map Step.tool = stageOrder ∧
        ∀ pre st post, group = pre ++ st :: post → ∀ r ∈ st.reads,
          r ∈ [js "uploads/" ++ js "s2" ++ js "_1.fastq.gz",
                js "uploads/" ++ js "s2" ++ js "_2.fastq.gz", js "uploads/ref.fasta",
                js "uploads/ref"] ∨
          ∃ p ∈ pre, r ∈ p.writes := by
  obtain ⟨steps, hrun, htools, _, _, _, hgroup⟩ :=
    script_step_order_and_threading (js "uploads/ref") (js "uploads/ref.fasta")
      [js "s1", js "s2"] (by decide) (by decide) (by decide)
  obtain ⟨earlier, group, later, h1, h2, h3, h4⟩ := hgroup [js "s1"] (js "s2") [] rfl
  exact ⟨steps, hrun, by simpa using htools, earlier, group, later, h1, by simpa using h2, h3, h4⟩

end Pipeline
